import Mathlib

/-!
# AddonsToolBarManager (framework/source/uielement/addonstoolbarmanager.cxx)

A shallow embedding of the add-on toolbar manager: the context test
`IsCorrectContext`, the icon selection `RetrieveImage` / `RefreshImages`, and the
population routine `FillToolbar`, followed by the properties established for them.

Conventions of the embedding.

* An `OUString` is its sequence of UTF-16 code units.
* `sal_uInt16` and `sal_uInt32` counters are natural numbers reduced modulo
  `2^16` and `2^32` at every increment.
* A call through a UNO interface, or to a helper that constructs objects, either
  returns or raises; `Outcome` records which. The failures of UNO calls are
  `uno::Exception`s, so a `catch ( uno::Exception& )` around such a call handles
  every failure of it.
* The widget is mutated in place: when an exception leaves `FillToolbar`, the
  manager keeps what had been done up to that point.
-/

namespace framework

/-! ## Strings -/

/-- An `OUString`: the sequence of its UTF-16 code units. -/
abbrev OUString := List Nat

/-- UTF-16 code units of one character. -/
def utf16 (c : Char) : List Nat :=
  if c.toNat < 65536 then [c.toNat]
  else [55296 + (c.toNat - 65536) / 1024, 56320 + (c.toNat - 65536) % 1024]

/-- The `OUString` written by a string literal. -/
def ou (s : String) : OUString := s.toList.flatMap utf16

/-- Search loop of `OUString::indexOf`: the first position, counted from `i`, at
which `sub` starts in the remaining text, or `-1`. -/
def indexOfAux (sub : OUString) : OUString → Nat → Int
  | [], _ => -1
  | c :: cs, i => if sub.isPrefixOf (c :: cs) then (i : Int) else indexOfAux sub cs (i + 1)

/-- Modelled from the spec: `OUString::indexOf( str )` of the string library, which
is not among the sources here: the index of the first occurrence of `sub` in `s`,
`-1` when there is none; an empty `sub` is never found. -/
def indexOf (s sub : OUString) : Int :=
  if sub.isEmpty then -1 else indexOfAux sub s 0

/-- `IsCorrectContext( rModuleIdentifier, aContextList )`. -/
def IsCorrectContext (rModuleIdentifier aContextList : OUString) : Bool :=
  if aContextList.isEmpty then
    true
  else if !rModuleIdentifier.isEmpty then
    let nIndex := indexOf aContextList rModuleIdentifier
    decide (nIndex ≥ 0)
  else
    false

/-! ## Images -/

/-- The icon sizes of `vcl::ImageType`. -/
inductive ImageType where
  | Size16
  | Size26
  | Size32
  deriving DecidableEq, Repr

/-- An `Image`; `none` is the empty image, the one for which `!aImage` holds. -/
abbrev Image := Option Nat

/-- The two icon sources `RetrieveImage` consults, for the frame of the manager. -/
structure ImageSources where
  /-- The add-on declared image: `AddonsOptions().GetImageFromURL( aURL, bBig )`. -/
  GetImageFromURL : OUString → Bool → Image
  /-- The command-to-icon lookup: `CommandInfoProvider::GetImageForCommand`. -/
  GetImageForCommand : OUString → ImageType → Image

/-- `RetrieveImage( rFrame, aImageId, aURL, bBigImage )`. -/
def RetrieveImage (src : ImageSources) (aImageId aURL : OUString) (bBigImage : Bool) : Image :=
  let eImageType := if bBigImage then ImageType.Size26 else ImageType.Size16
  -- lines 112-116, reached when the block of lines 101-110 has not returned
  let byURL : Image :=
    let aImage := src.GetImageFromURL aURL bBigImage
    if aImage.isNone then src.GetImageForCommand aImageId eImageType else aImage
  if !aImageId.isEmpty then
    let aImage := src.GetImageFromURL aImageId bBigImage
    if aImage.isSome then aImage
    else
      let aImage := src.GetImageForCommand aImageId eImageType
      if aImage.isSome then aImage else byURL
  else byURL

/-! ## The toolbar widget -/

/-- The item kinds of `ToolBoxItemType`. -/
inductive ToolBoxItemType where
  | DONTKNOW
  | BUTTON
  | SPACE
  | SEPARATOR
  | BREAK
  deriving DecidableEq, Repr

/-- The window kinds `FillToolbar` distinguishes, and one for all the others. -/
inductive WindowType where
  | WINDOW
  | LISTBOX
  | MULTILISTBOX
  | COMBOBOX
  deriving DecidableEq, Repr

/-- The two button sizes `RefreshImages` selects between. -/
inductive ToolBoxButtonSize where
  | DontCare
  | Small
  | Large
  deriving DecidableEq, Repr

/-- The runtime data attached to an item (`AddonsParams`). -/
structure AddonsParams where
  aImageId : OUString
  aControlType : OUString
  nWidth : Nat
  deriving DecidableEq, Repr

/-- A window embedded in an item. -/
structure VclWindow where
  wid : Nat
  nType : WindowType
  accessibleName : OUString
  deriving DecidableEq, Repr

/-- One item of the toolbar. A separator carries the identifier `0`. -/
structure ImplToolItem where
  mnId : Nat
  meType : ToolBoxItemType
  maText : OUString
  maQuickHelpText : OUString
  maCommandStr : OUString
  mpUserData : Option AddonsParams
  mpWindow : Option VclWindow
  maImage : Image
  deriving DecidableEq, Repr

/-- Modelled from the spec: the toolbar widget (`ToolBox`), whose class is not among
the sources here: the ordered items it owns, each with a numeric identifier, a
command, runtime data, an embedded window and a separator marker; plus the button
size and the output size `RefreshImages` sets. -/
structure ToolBox where
  m_aItems : List ImplToolItem
  meBtnSize : ToolBoxButtonSize
  maOutSize : Nat × Nat
  deriving DecidableEq, Repr

/-- Apply `f` to the first item whose identifier is `nId`: how the widget resolves
an identifier for every `SetItem...` call. -/
def modifyItem (f : ImplToolItem → ImplToolItem) (nId : Nat) : List ImplToolItem → List ImplToolItem
  | [] => []
  | it :: rest => if it.mnId = nId then f it :: rest else it :: modifyItem f nId rest

/-- The item `InsertSeparator` appends. -/
def separatorItem : ImplToolItem :=
  { mnId := 0, meType := ToolBoxItemType.SEPARATOR, maText := [], maQuickHelpText := [],
    maCommandStr := [], mpUserData := none, mpWindow := none, maImage := none }

namespace ToolBox

def GetItemCount (tb : ToolBox) : Nat := tb.m_aItems.length

def GetItemType (tb : ToolBox) (nPos : Nat) : ToolBoxItemType :=
  match tb.m_aItems.get? nPos with
  | some it => it.meType
  | none => ToolBoxItemType.DONTKNOW

def GetItemId (tb : ToolBox) (nPos : Nat) : Nat :=
  match tb.m_aItems.get? nPos with
  | some it => it.mnId
  | none => 0

def ImplGetItem (tb : ToolBox) (nId : Nat) : Option ImplToolItem :=
  tb.m_aItems.find? (fun it => it.mnId == nId)

def GetItemCommand (tb : ToolBox) (nId : Nat) : OUString :=
  match tb.ImplGetItem nId with
  | some it => it.maCommandStr
  | none => []

def GetItemText (tb : ToolBox) (nId : Nat) : OUString :=
  match tb.ImplGetItem nId with
  | some it => it.maText
  | none => []

def GetItemData (tb : ToolBox) (nId : Nat) : Option AddonsParams :=
  match tb.ImplGetItem nId with
  | some it => it.mpUserData
  | none => none

def Clear (tb : ToolBox) : ToolBox := { tb with m_aItems := [] }

def InsertSeparator (tb : ToolBox) : ToolBox :=
  { tb with m_aItems := tb.m_aItems ++ [separatorItem] }

def InsertItem (tb : ToolBox) (nId : Nat) (rText : OUString) : ToolBox :=
  { tb with m_aItems := tb.m_aItems ++
      [{ mnId := nId, meType := ToolBoxItemType.BUTTON, maText := rText, maQuickHelpText := [],
         maCommandStr := [], mpUserData := none, mpWindow := none, maImage := none }] }

def SetQuickHelpText (tb : ToolBox) (nId : Nat) (rText : OUString) : ToolBox :=
  { tb with m_aItems := modifyItem (fun it => { it with maQuickHelpText := rText }) nId tb.m_aItems }

def SetItemData (tb : ToolBox) (nId : Nat) (pData : Option AddonsParams) : ToolBox :=
  { tb with m_aItems := modifyItem (fun it => { it with mpUserData := pData }) nId tb.m_aItems }

def SetItemCommand (tb : ToolBox) (nId : Nat) (rCommand : OUString) : ToolBox :=
  { tb with m_aItems := modifyItem (fun it => { it with maCommandStr := rCommand }) nId tb.m_aItems }

def SetItemWindow (tb : ToolBox) (nId : Nat) (pWindow : Option VclWindow) : ToolBox :=
  { tb with m_aItems := modifyItem (fun it => { it with mpWindow := pWindow }) nId tb.m_aItems }

def SetItemImage (tb : ToolBox) (nId : Nat) (aImage : Image) : ToolBox :=
  { tb with m_aItems := modifyItem (fun it => { it with maImage := aImage }) nId tb.m_aItems }

end ToolBox

/-! ## Controllers and the services `FillToolbar` calls -/

/-- What a call that may raise an exception does. -/
inductive Outcome (α : Type) where
  | ok (a : α)
  | threw
  deriving DecidableEq, Repr

/-- The `XWindow` a controller hands out; `VCLUnoHelper::GetWindow` yields its
window, when it has one. -/
structure XWindow where
  vclWindow : Option VclWindow
  deriving DecidableEq, Repr

/-- An object returned by the controller factory or by
`ToolBarMerger::CreateController`: which of the queried interfaces it implements,
and what the calls `FillToolbar` makes on them do. -/
structure UnoObject where
  oid : Nat
  /-- Whether the query for `XStatusListener` succeeds. -/
  implXStatusListener : Bool
  /-- `XInitialization`, when implemented: what `initialize( aArgs )` does. -/
  xInitialization : Option (Outcome Unit)
  /-- `XToolbarController`, when implemented: what `createItemWindow` does. -/
  xToolbarController : Option (Outcome (Option XWindow))
  /-- `XUpdatable`, when implemented: what `update()` does. -/
  xUpdatable : Option (Outcome Unit)
  deriving DecidableEq, Repr

/-- A `Reference< XStatusListener >`; `none` is the empty reference. -/
abbrev XStatusListener := Option UnoObject

/-- A `Reference` set from an object with `UNO_QUERY` for `XStatusListener`. -/
def queryStatusListener (x : Option UnoObject) : XStatusListener :=
  x.filter (fun o => o.implXStatusListener)

/-- The body of `try { ... } catch ( const uno::Exception& ) { }` around one call
whose result is not used: control continues after it whatever the call did. -/
def tryCatch (_call : Outcome Unit) : Outcome Unit := Outcome.ok ()

/-- The collaborators of the manager: module manager, command info provider,
controller factory, component context and toolbar merger. -/
structure Env where
  /-- `ModuleManager::create( m_xContext )->identify( m_xFrame )`. -/
  identify : Outcome OUString
  /-- `CommandInfoProvider::GetCommandShortcut( aURL, m_xFrame )`. -/
  GetCommandShortcut : OUString → OUString
  /-- `m_xToolbarControllerFactory.is()`. -/
  factoryIs : Bool
  /-- `m_xToolbarControllerFactory->hasController( aURL, aModuleName )`. -/
  hasController : OUString → OUString → Outcome Bool
  /-- `Reference<XMultiServiceFactory>( m_xContext->getServiceManager(), UNO_QUERY_THROW )`. -/
  serviceManager : Outcome Unit
  /-- `createInstanceWithArgumentsAndContext`, by command, module identifier and
  item identifier (the other arguments are fixed for the manager). -/
  createInstanceWithArgumentsAndContext : OUString → OUString → Nat → Outcome (Option UnoObject)
  /-- `ToolBarMerger::CreateController`, by command, identifier, width and control type. -/
  CreateController : OUString → Nat → Nat → OUString → Outcome (Option UnoObject)
  /-- Whether `VCLUnoHelper::GetInterface( m_pToolBar )` is a non-empty reference. -/
  xToolbarWindowIs : Bool

/-! ## The manager -/

/-- Modelled from the spec: an item descriptor, as the values
`ToolBarMerger::ConvertSequenceToValues` (not among the sources here) extracts from
one property sequence: command, title, image identifier, target, context
restriction, control type and width. -/
structure Descriptor where
  aURL : OUString
  aTitle : OUString
  aImageId : OUString
  aTarget : OUString
  aContext : OUString
  aControlType : OUString
  nWidth : Nat
  deriving DecidableEq, Repr

/-- `ToolBarControllerMap`: identifier to controller reference, one entry per key. -/
abbrev ToolBarControllerMap := List (Nat × XStatusListener)

/-- `m[ k ] = v`: overwrite the entry of `k`, or add one. -/
def mapAssign : ToolBarControllerMap → Nat → XStatusListener → ToolBarControllerMap
  | [], k, v => [(k, v)]
  | (k', v') :: rest, k, v =>
    if k' = k then (k, v) :: rest else (k', v') :: mapAssign rest k v

/-- `m.find( k )`. -/
def mapFind (m : ToolBarControllerMap) (k : Nat) : Option XStatusListener :=
  (m.find? (fun e => e.1 == k)).map (fun e => e.2)

/-- The state of an `AddonsToolBarManager` that the modelled methods read or write. -/
structure AddonsToolBarManager where
  m_bDisposed : Bool
  m_aModuleIdentifier : OUString
  m_pToolBar : ToolBox
  m_aControllerMap : ToolBarControllerMap
  m_bFrameActionRegistered : Bool
  deriving DecidableEq, Repr

/-- Modelled from the spec: `ToolBarManager::RemoveControllers` of the base class,
which is not among the sources here: it drops the prior controller associations
(the item windows of the identified items and the controller mapping). -/
def RemoveControllers (self : AddonsToolBarManager) : AddonsToolBarManager :=
  if self.m_bDisposed then self
  else
    { self with
      m_pToolBar :=
        (List.range self.m_pToolBar.GetItemCount).foldl
          (fun tb i =>
            let nItemId := self.m_pToolBar.GetItemId i
            if nItemId > 0 then tb.SetItemWindow nItemId none else tb)
          self.m_pToolBar
      m_aControllerMap := [] }

/-- Modelled from the spec: `ToolBarManager::AddFrameActionListener` of the base
class, which is not among the sources here: register for the notifications of the
frame, once. -/
def AddFrameActionListener (self : AddonsToolBarManager) : AddonsToolBarManager :=
  { self with m_bFrameActionRegistered := true }

/-- The literal `"private:separator"`. -/
def privateSeparator : OUString := ou "private:separator"

/-- The variables of the loop of `FillToolbar`, with the two members of the manager
the loop writes: the toolbar and the controller mapping. -/
structure LoopState where
  m_pToolBar : ToolBox
  m_aControllerMap : ToolBarControllerMap
  nId : Nat
  nElements : Nat
  bAppendSeparator : Bool
  deriving DecidableEq, Repr

/-- What a piece of `FillToolbar` leaves behind: the state reached, and whether an
exception is on its way out. -/
structure Step (σ : Type) where
  state : σ
  threw : Bool
  deriving DecidableEq, Repr

/-- Lines 230-253: the separator owed to an earlier request, the new item, its
quick help text, runtime data and command. -/
def insertToolbarItem (env : Env) (tb : ToolBox) (bAppendSeparator : Bool) (nId : Nat)
    (d : Descriptor) : ToolBox :=
  let nCount := tb.GetItemCount
  let tb :=
    if bAppendSeparator && decide (nCount > 0) &&
        (tb.GetItemType (nCount - 1) != ToolBoxItemType.SEPARATOR) then
      tb.InsertSeparator
    else tb
  let tb := tb.InsertItem nId d.aTitle
  let aShortcut := env.GetCommandShortcut d.aURL
  let tb :=
    if !aShortcut.isEmpty then
      tb.SetQuickHelpText nId (d.aTitle ++ ou " (" ++ aShortcut ++ ou ")")
    else tb
  let pRuntimeItemData : AddonsParams :=
    { aImageId := d.aImageId, aControlType := d.aControlType, nWidth := d.nWidth }
  let tb := tb.SetItemData nId (some pRuntimeItemData)
  tb.SetItemCommand nId d.aURL

/-- Lines 255-286: the controller of the item and `bMustBeInit`, or the exception
that leaves the block. Only the factory instantiation stands in a `try`. -/
def createController (env : Env) (m_aModuleIdentifier : OUString) (nId : Nat) (d : Descriptor) :
    Outcome (XStatusListener × Bool) :=
  let bFactory : Outcome Bool :=
    if env.factoryIs then env.hasController d.aURL m_aModuleIdentifier else Outcome.ok false
  match bFactory with
  | Outcome.threw => Outcome.threw
  | Outcome.ok true =>
    match env.serviceManager with
    | Outcome.threw => Outcome.threw
    | Outcome.ok _ =>
      match env.createInstanceWithArgumentsAndContext d.aURL m_aModuleIdentifier nId with
      | Outcome.ok x => Outcome.ok (queryStatusListener x, false)
      | Outcome.threw => Outcome.ok (none, false)
  | Outcome.ok false =>
    match env.CreateController d.aURL nId d.nWidth d.aControlType with
    | Outcome.threw => Outcome.threw
    | Outcome.ok x => Outcome.ok (queryStatusListener x, true)

/-- Lines 291-312: the call of `XInitialization` on the controller, made when the
controller does not come from the factory. The arguments are built outside the
`try`, the call stands inside. -/
def initController (env : Env) (xController : XStatusListener) (bMustBeInit : Bool) :
    Outcome Unit :=
  match xController.bind (fun o => o.xInitialization) with
  | some fInit =>
    if bMustBeInit then
      match env.serviceManager with
      | Outcome.threw => Outcome.threw
      | Outcome.ok _ => tryCatch fInit
    else Outcome.ok ()
  | none => Outcome.ok ()

/-- Lines 315-330: ask the controller for an item window and set it at the item. -/
def requestItemWindow (env : Env) (tb : ToolBox) (nId : Nat) (xController : XStatusListener) :
    Step ToolBox :=
  match xController.bind (fun o => o.xToolbarController) with
  | some createItemWindow =>
    if env.xToolbarWindowIs then
      match createItemWindow with
      | Outcome.threw => ⟨tb, true⟩
      | Outcome.ok xWindow =>
        match xWindow.bind (fun w => w.vclWindow) with
        | some pItemWin =>
          let pItemWin :=
            if pItemWin.nType = WindowType.LISTBOX ∨ pItemWin.nType = WindowType.MULTILISTBOX ∨
                pItemWin.nType = WindowType.COMBOBOX then
              { pItemWin with accessibleName := tb.GetItemText nId }
            else pItemWin
          ⟨tb.SetItemWindow nId (some pItemWin), false⟩
        | none => ⟨tb, false⟩
    else ⟨tb, false⟩
  | none => ⟨tb, false⟩

/-- Lines 333-343: tell the controller that it is live. -/
def updateController (xController : XStatusListener) : Outcome Unit :=
  match xController.bind (fun o => o.xUpdatable) with
  | some update => tryCatch update
  | none => Outcome.ok ()

/-- Lines 228-347: the branch of the loop body for a descriptor that is not a
separator. -/
def fillItem (env : Env) (m_aModuleIdentifier : OUString) (st : LoopState) (d : Descriptor) :
    Step LoopState :=
  let nId := st.nId
  let st : LoopState :=
    { st with
      m_pToolBar := insertToolbarItem env st.m_pToolBar st.bAppendSeparator nId d
      bAppendSeparator := false }
  match createController env m_aModuleIdentifier nId d with
  | Outcome.threw => ⟨st, true⟩
  | Outcome.ok (xController, bMustBeInit) =>
    let st : LoopState :=
      { st with m_aControllerMap := mapAssign st.m_aControllerMap nId xController }
    match initController env xController bMustBeInit with
    | Outcome.threw => ⟨st, true⟩
    | Outcome.ok _ =>
      let w := requestItemWindow env st.m_pToolBar nId xController
      let st : LoopState := { st with m_pToolBar := w.state }
      if w.threw then ⟨st, true⟩
      else
        match updateController xController with
        | Outcome.threw => ⟨st, true⟩
        | Outcome.ok _ =>
          ⟨{ st with nId := (nId + 1) % 65536, nElements := (st.nElements + 1) % 4294967296 },
            false⟩

/-- Lines 219-227: the branch of the loop body for `"private:separator"`. -/
def fillSeparator (st : LoopState) : LoopState :=
  let nCount := st.m_pToolBar.GetItemCount
  if decide (nCount > 0) &&
      (st.m_pToolBar.GetItemType (nCount - 1) != ToolBoxItemType.SEPARATOR) &&
      decide (st.nElements > 0) then
    { st with nElements := 0, m_pToolBar := st.m_pToolBar.InsertSeparator }
  else st

/-- Lines 205-348: one turn of the loop. -/
def fillStep (env : Env) (m_aModuleIdentifier aModuleIdentifier : OUString) (st : LoopState)
    (d : Descriptor) : Step LoopState :=
  if IsCorrectContext aModuleIdentifier d.aContext then
    if d.aURL == privateSeparator then ⟨fillSeparator st, false⟩
    else fillItem env m_aModuleIdentifier st d
  else ⟨st, false⟩

/-- Lines 203-349: the loop over the descriptors; an exception ends it. -/
def fillLoop (env : Env) (m_aModuleIdentifier aModuleIdentifier : OUString) :
    LoopState → List Descriptor → Step LoopState
  | st, [] => ⟨st, false⟩
  | st, d :: rest =>
    let r := fillStep env m_aModuleIdentifier aModuleIdentifier st d
    if r.threw then r else fillLoop env m_aModuleIdentifier aModuleIdentifier r.state rest

/-- Lines 190-198: the module identifier, empty when identification fails. -/
def identifyModule (env : Env) : OUString :=
  match env.identify with
  | Outcome.ok aModuleIdentifier => aModuleIdentifier
  | Outcome.threw => []

/-- `AddonsToolBarManager::FillToolbar( rAddonToolbar )`: the manager afterwards,
and whether an exception left the method. -/
def FillToolbar (env : Env) (self : AddonsToolBarManager) (rAddonToolbar : List Descriptor) :
    Step AddonsToolBarManager :=
  if self.m_bDisposed then ⟨self, false⟩
  else
    let self := RemoveControllers self
    let self := { self with m_pToolBar := self.m_pToolBar.Clear, m_aControllerMap := [] }
    let aModuleIdentifier := identifyModule env
    let r := fillLoop env self.m_aModuleIdentifier aModuleIdentifier
      ⟨self.m_pToolBar, self.m_aControllerMap, 1, 0, false⟩ rAddonToolbar
    let self :=
      { self with m_pToolBar := r.state.m_pToolBar, m_aControllerMap := r.state.m_aControllerMap }
    if r.threw then ⟨self, true⟩
    else ⟨AddFrameActionListener self, false⟩

/-- `AddonsToolBarManager::RefreshImages()`, given the symbol size option
`SvtMiscOptions().AreCurrentSymbolsLarge()` and the size `CalcWindowSizePixel`
computes. -/
def RefreshImages (src : ImageSources) (bBigImages : Bool) (CalcWindowSizePixel : ToolBox → Nat × Nat)
    (self : AddonsToolBarManager) : AddonsToolBarManager :=
  let tb :=
    (List.range self.m_pToolBar.GetItemCount).foldl
      (fun (tb : ToolBox) nPos =>
        let nId := tb.GetItemId nPos
        if nId > 0 then
          let aCommandURL := tb.GetItemCommand nId
          let aImageId : OUString :=
            match tb.GetItemData nId with
            | some pRuntimeItemData => pRuntimeItemData.aImageId
            | none => []
          tb.SetItemImage nId (RetrieveImage src aImageId aCommandURL bBigImages)
        else tb)
      self.m_pToolBar
  let tb := { tb with meBtnSize := if bBigImages then ToolBoxButtonSize.Large else ToolBoxButtonSize.Small }
  let aSize := CalcWindowSizePixel tb
  { self with m_pToolBar := { tb with maOutSize := aSize } }

/-! ## Sample data -/

/-- A descriptor with a command and a context restriction, and nothing else. -/
def mkDescriptor (aURL aContext : OUString) : Descriptor :=
  { aURL := aURL, aTitle := [], aImageId := [], aTarget := [], aContext := aContext,
    aControlType := [], nWidth := 0 }

/-- A controller that implements every queried interface and never fails. -/
def plainController (oid : Nat) : UnoObject :=
  { oid := oid, implXStatusListener := true, xInitialization := some (Outcome.ok ()),
    xToolbarController := some (Outcome.ok none), xUpdatable := some (Outcome.ok ()) }

/-- Collaborators none of which fails: the module is `aModuleIdentifier`, there is
no external factory, and every command gets a plain controller. -/
def quietEnv (aModuleIdentifier : OUString) : Env :=
  { identify := Outcome.ok aModuleIdentifier
    GetCommandShortcut := fun _ => []
    factoryIs := false
    hasController := fun _ _ => Outcome.ok false
    serviceManager := Outcome.ok ()
    createInstanceWithArgumentsAndContext := fun _ _ _ => Outcome.ok none
    CreateController := fun _ nId _ _ => Outcome.ok (some (plainController nId))
    xToolbarWindowIs := true }

/-- A fresh manager: nothing in the toolbar, nothing in the controller mapping. -/
def freshManager : AddonsToolBarManager :=
  { m_bDisposed := false, m_aModuleIdentifier := [],
    m_pToolBar := { m_aItems := [], meBtnSize := ToolBoxButtonSize.DontCare, maOutSize := (0, 0) },
    m_aControllerMap := [], m_bFrameActionRegistered := false }

/-- The descriptors of the example of the specification. -/
def exampleToolbar : List Descriptor :=
  [ mkDescriptor (ou "cmd:Save") [],
    mkDescriptor privateSeparator [],
    mkDescriptor (ou "cmd:Print") (ou "com.sun.star.text.TextDocument") ]

/-- What the claims read off an item: kind, identifier and command. -/
def itemView (it : ImplToolItem) : ToolBoxItemType × Nat × OUString :=
  (it.meType, it.mnId, it.maCommandStr)

/-! ## Notions used in the statements and proofs -/

/-- Kind and identifier of every item, in order. -/
def kinds (tb : ToolBox) : List (ToolBoxItemType × Nat) :=
  tb.m_aItems.map (fun it => (it.meType, it.mnId))

/-- Whether the last item exists and is not a separator: the test of lines 222 and 231. -/
def lastIsItem (tb : ToolBox) : Bool :=
  decide (tb.GetItemCount > 0) && (tb.GetItemType (tb.GetItemCount - 1) != ToolBoxItemType.SEPARATOR)

/-- No separator in front and no two separators in a row, on a list of item kinds. -/
def Tidy (l : List ToolBoxItemType) : Prop :=
  l.head? ≠ some ToolBoxItemType.SEPARATOR ∧
    l.Chain' (fun a b => ¬ (a = ToolBoxItemType.SEPARATOR ∧ b = ToolBoxItemType.SEPARATOR))

/-- The kinds of the items, in order. -/
def types (tb : ToolBox) : List ToolBoxItemType := tb.m_aItems.map (fun it => it.meType)

/-- The loop state `FillToolbar` starts from: the emptied toolbar, the emptied
mapping, and the initial values of the three local variables. -/
def startState (self : AddonsToolBarManager) : LoopState :=
  ⟨(RemoveControllers self).m_pToolBar.Clear, [], 1, 0, false⟩

/-- The loop of `FillToolbar` on a live manager. -/
def fillRun (env : Env) (self : AddonsToolBarManager) (ds : List Descriptor) : Step LoopState :=
  fillLoop env self.m_aModuleIdentifier (identifyModule env) (startState self) ds

/-- The keys of the controller mapping. -/
def mapKeys (m : ToolBarControllerMap) : List Nat := m.map Prod.fst

/-- A descriptor that `FillToolbar` turns into an item: its context restriction is
accepted for the module and its command is not `"private:separator"`. -/
def wanted (aModuleIdentifier : OUString) (d : Descriptor) : Bool :=
  IsCorrectContext aModuleIdentifier d.aContext && !(d.aURL == privateSeparator)

/-- Every key of the mapping is the identifier of a button of the toolbar. -/
def KeysAreButtons (st : LoopState) : Prop :=
  ∀ k ∈ mapKeys st.m_aControllerMap, (ToolBoxItemType.BUTTON, k) ∈ kinds st.m_pToolBar

/-- The mapping after `c` items: the next identifier, the number of entries, and
the keys. -/
def Counted (st : LoopState) (c : Nat) : Prop :=
  st.nId = (1 + c) % 65536 ∧ st.m_aControllerMap.length = min c 65536 ∧
    ∀ k, k ∈ mapKeys st.m_aControllerMap ↔ ∃ j, j < c ∧ k = (1 + j) % 65536

/-- The calls of the controller block that stand outside every `try` return:
the factory lookup, the service manager query, `ToolBarMerger::CreateController`,
and `createItemWindow` of the controllers that are created. -/
def UnguardedCallsReturn (env : Env) : Prop :=
  (∀ u m, env.hasController u m ≠ Outcome.threw) ∧
  env.serviceManager ≠ Outcome.threw ∧
  (∀ u n w t, env.CreateController u n w t ≠ Outcome.threw) ∧
  (∀ u m n o, env.createInstanceWithArgumentsAndContext u m n = Outcome.ok (some o) →
    o.xToolbarController ≠ some Outcome.threw) ∧
  (∀ u n w t o, env.CreateController u n w t = Outcome.ok (some o) →
    o.xToolbarController ≠ some Outcome.threw)

/-- Kind and identifier of the items that are not separators. -/
def buttonKinds (tb : ToolBox) : List (ToolBoxItemType × Nat) :=
  (kinds tb).filter (fun k => k.1 != ToolBoxItemType.SEPARATOR)

/-- After the descriptors `p`: the next identifier and the identifiers handed out. -/
def Numbered (a : OUString) (st : LoopState) (p : List Descriptor) : Prop :=
  st.nId = (1 + p.countP (wanted a)) % 65536 ∧
    buttonKinds st.m_pToolBar =
      (List.range (p.countP (wanted a))).map (fun j => (ToolBoxItemType.BUTTON, (1 + j) % 65536))

/-- The items that are not separators, in order. -/
def buttons (tb : ToolBox) : List ImplToolItem :=
  tb.m_aItems.filter (fun it => it.meType != ToolBoxItemType.SEPARATOR)

/-- After the descriptors `p`, as long as the identifiers have not wrapped: the
identifiers in use, the identifier of the separators, and identifier and command
of the buttons. -/
def Laid (a : OUString) (st : LoopState) (p : List Descriptor) : Prop :=
  p.countP (wanted a) < 65536 →
    (∀ it ∈ st.m_pToolBar.m_aItems, it.mnId ≤ p.countP (wanted a)) ∧
    (∀ it ∈ st.m_pToolBar.m_aItems, it.meType = ToolBoxItemType.SEPARATOR → it.mnId = 0) ∧
    (buttons st.m_pToolBar).map (fun it => (it.mnId, it.maCommandStr)) =
      ((p.filter (wanted a)).enumFrom 1).map (fun kd => (kd.1, kd.2.aURL))

/-- Button size and output size of the toolbar: what the loop never writes. -/
def frameOf (tb : ToolBox) : ToolBoxButtonSize × (Nat × Nat) := (tb.meBtnSize, tb.maOutSize)

/-- The descriptor of the command `cmd:Save`, without context restriction. -/
def saveDescriptor : Descriptor := mkDescriptor (ou "cmd:Save") []

/-- The descriptor of the command `cmd:Print`, without context restriction. -/
def printDescriptor : Descriptor := mkDescriptor (ou "cmd:Print") []

/-- The collaborators of the example of the specification: a text document. -/
def textEnv : Env := quietEnv (ou "com.sun.star.text.TextDocument")

/-- Collaborators whose controller factory fails at the lookup `hasController`. -/
def lookupThrowsEnv : Env :=
  { quietEnv [] with factoryIs := true, hasController := fun _ _ => Outcome.threw }

/-- A controller whose `XInitialization` and `XUpdatable` calls both fail. -/
def brokenController (oid : Nat) : UnoObject :=
  { oid := oid, implXStatusListener := true, xInitialization := some Outcome.threw,
    xToolbarController := some (Outcome.ok none), xUpdatable := some Outcome.threw }

/-- Collaborators whose guarded calls all fail: the factory claims `cmd:Save` and
fails to instantiate it, and the controllers made by `ToolBarMerger` fail in
`XInitialization` and in `XUpdatable`. -/
def guardedFailuresEnv : Env :=
  { identify := Outcome.ok (ou "com.sun.star.text.TextDocument")
    GetCommandShortcut := fun _ => []
    factoryIs := true
    hasController := fun aURL _ => Outcome.ok (aURL == ou "cmd:Save")
    serviceManager := Outcome.ok ()
    createInstanceWithArgumentsAndContext := fun _ _ _ => Outcome.threw
    CreateController := fun _ nId _ _ => Outcome.ok (some (brokenController nId))
    xToolbarWindowIs := true }

/-- Collaborators for which the identification of the module fails. -/
def unidentifiedEnv : Env := { quietEnv [] with identify := Outcome.threw }

/-- Icon sources with no add-on image at all and a command icon for `cmd:Save` only. -/
def saveIconOnly : ImageSources :=
  { GetImageFromURL := fun _ _ => none
    GetImageForCommand := fun aCommand _ => if aCommand = ou "cmd:Save" then some 7 else none }

/-- A manager whose toolbar holds the single item of `cmd:Save`, with an empty image
identifier in its runtime data. -/
def saveManager : AddonsToolBarManager :=
  (FillToolbar (quietEnv []) freshManager [saveDescriptor]).state

/-! ## Lemmas -/

theorem indexOfAux_nonneg_iff (sub : OUString) (hsub : sub ≠ []) :
    ∀ (s : OUString) (i : Nat), 0 ≤ indexOfAux sub s i ↔ sub <:+: s := by
  intro s
  induction s with
  | nil =>
    intro i
    simp [indexOfAux, hsub]
  | cons c cs ih =>
    intro i
    unfold indexOfAux
    by_cases hp : sub.isPrefixOf (c :: cs) = true
    · rw [if_pos hp]
      have h1 : sub <+: c :: cs := List.isPrefixOf_iff_prefix.mp hp
      constructor
      · intro _
        exact h1.isInfix
      · intro _
        exact Int.ofNat_nonneg i
    · rw [if_neg hp, ih (i + 1), List.infix_cons_iff]
      have h1 : ¬ sub <+: c :: cs := fun h => hp <| List.isPrefixOf_iff_prefix.mpr h
      constructor
      · intro h
        exact Or.inr h
      · intro h
        rcases h with h | h
        · exact absurd h h1
        · exact h

theorem indexOf_nonneg_iff (s sub : OUString) :
    0 ≤ indexOf s sub ↔ sub ≠ [] ∧ sub <:+: s := by
  unfold indexOf
  cases sub with
  | nil => simp
  | cons a t =>
    have h : (a :: t) ≠ [] := List.cons_ne_nil a t
    simp only [List.isEmpty_cons, Bool.false_eq_true, if_false]
    rw [indexOfAux_nonneg_iff (a :: t) h s 0]
    simp

theorem IsCorrectContext_iff_substring (m c : OUString) :
    IsCorrectContext m c = true ↔ (c = [] ∨ (m ≠ [] ∧ ∃ s t, c = s ++ m ++ t)) := by
  have hinf : (m <:+: c) ↔ ∃ s t, c = s ++ m ++ t := by
    constructor
    · rintro ⟨s, t, h⟩
      exact ⟨s, t, h.symm⟩
    · rintro ⟨s, t, h⟩
      exact ⟨s, t, h.symm⟩
  rw [← hinf]
  unfold IsCorrectContext
  cases c with
  | nil => simp
  | cons a t =>
    cases m with
    | nil => simp
    | cons b u =>
      simp only [List.isEmpty_cons, Bool.false_eq_true, if_false, Bool.not_false, if_true,
        ge_iff_le, decide_eq_true_eq]
      rw [indexOf_nonneg_iff]
      simp

theorem modifyItem_map {β : Type} (g : ImplToolItem → β) (f : ImplToolItem → ImplToolItem)
    (hf : ∀ it, g (f it) = g it) (nId : Nat) (l : List ImplToolItem) :
    (modifyItem f nId l).map g = l.map g := by
  induction l with
  | nil => rfl
  | cons a t ih =>
    unfold modifyItem
    by_cases h : a.mnId = nId
    · simp [h, hf]
    · simp [h, ih]

@[simp]
theorem kinds_SetQuickHelpText (tb : ToolBox) (nId : Nat) (t : OUString) :
    kinds (tb.SetQuickHelpText nId t) = kinds tb := by
  unfold kinds ToolBox.SetQuickHelpText
  apply modifyItem_map
  intro it
  rfl

@[simp]
theorem kinds_SetItemData (tb : ToolBox) (nId : Nat) (p : Option AddonsParams) :
    kinds (tb.SetItemData nId p) = kinds tb := by
  unfold kinds ToolBox.SetItemData
  apply modifyItem_map
  intro it
  rfl

@[simp]
theorem kinds_SetItemCommand (tb : ToolBox) (nId : Nat) (c : OUString) :
    kinds (tb.SetItemCommand nId c) = kinds tb := by
  unfold kinds ToolBox.SetItemCommand
  apply modifyItem_map
  intro it
  rfl

@[simp]
theorem kinds_SetItemWindow (tb : ToolBox) (nId : Nat) (w : Option VclWindow) :
    kinds (tb.SetItemWindow nId w) = kinds tb := by
  unfold kinds ToolBox.SetItemWindow
  apply modifyItem_map
  intro it
  rfl

@[simp]
theorem kinds_InsertItem (tb : ToolBox) (nId : Nat) (t : OUString) :
    kinds (tb.InsertItem nId t) = kinds tb ++ [(ToolBoxItemType.BUTTON, nId)] := by
  simp [kinds, ToolBox.InsertItem]

@[simp]
theorem kinds_InsertSeparator (tb : ToolBox) :
    kinds tb.InsertSeparator = kinds tb ++ [(ToolBoxItemType.SEPARATOR, 0)] := by
  simp [kinds, ToolBox.InsertSeparator, separatorItem]

theorem kinds_insertToolbarItem (env : Env) (tb : ToolBox) (b : Bool) (nId : Nat) (d : Descriptor) :
    kinds (insertToolbarItem env tb b nId d) =
      kinds tb ++ (if b && lastIsItem tb then [(ToolBoxItemType.SEPARATOR, 0)] else []) ++
        [(ToolBoxItemType.BUTTON, nId)] := by
  unfold insertToolbarItem lastIsItem
  simp only [Bool.and_assoc]
  generalize (b && (decide (tb.GetItemCount > 0) &&
      (tb.GetItemType (tb.GetItemCount - 1) != ToolBoxItemType.SEPARATOR))) = c
  generalize (!(env.GetCommandShortcut d.aURL).isEmpty) = e
  cases c <;> cases e <;> simp

theorem kinds_requestItemWindow (env : Env) (tb : ToolBox) (nId : Nat) (x : XStatusListener) :
    kinds (requestItemWindow env tb nId x).state = kinds tb := by
  unfold requestItemWindow
  split
  · split
    · split
      · rfl
      · split
        · simp
        · rfl
    · rfl
  · rfl

theorem kinds_fillItem (env : Env) (m : OUString) (st : LoopState) (d : Descriptor) :
    kinds (fillItem env m st d).state.m_pToolBar =
      kinds st.m_pToolBar ++
        (if st.bAppendSeparator && lastIsItem st.m_pToolBar then [(ToolBoxItemType.SEPARATOR, 0)]
          else []) ++ [(ToolBoxItemType.BUTTON, st.nId)] := by
  unfold fillItem
  dsimp only
  split
  · exact kinds_insertToolbarItem _ _ _ _ _
  · split
    · exact kinds_insertToolbarItem _ _ _ _ _
    · split
      · dsimp only
        rw [kinds_requestItemWindow]
        exact kinds_insertToolbarItem _ _ _ _ _
      · split
        · dsimp only
          rw [kinds_requestItemWindow]
          exact kinds_insertToolbarItem _ _ _ _ _
        · dsimp only
          rw [kinds_requestItemWindow]
          exact kinds_insertToolbarItem _ _ _ _ _

theorem fillItem_bAppendSeparator (env : Env) (m : OUString) (st : LoopState) (d : Descriptor) :
    (fillItem env m st d).state.bAppendSeparator = false := by
  unfold fillItem
  dsimp only
  split
  · rfl
  · split
    · rfl
    · split
      · rfl
      · split <;> rfl

theorem fillItem_map_cases (env : Env) (m : OUString) (st : LoopState) (d : Descriptor) :
    (fillItem env m st d).state.m_aControllerMap = st.m_aControllerMap ∨
      ∃ x, (fillItem env m st d).state.m_aControllerMap = mapAssign st.m_aControllerMap st.nId x := by
  unfold fillItem
  dsimp only
  split
  · exact Or.inl rfl
  · rename_i x b _
    split
    · exact Or.inr ⟨x, rfl⟩
    · split
      · exact Or.inr ⟨x, rfl⟩
      · split <;> exact Or.inr ⟨x, rfl⟩

theorem fillItem_returns (env : Env) (m : OUString) (st : LoopState) (d : Descriptor)
    (h : (fillItem env m st d).threw = false) :
    (∃ x, (fillItem env m st d).state.m_aControllerMap = mapAssign st.m_aControllerMap st.nId x) ∧
      (fillItem env m st d).state.nId = (st.nId + 1) % 65536 ∧
      (fillItem env m st d).state.nElements = (st.nElements + 1) % 4294967296 := by
  revert h
  unfold fillItem
  dsimp only
  split
  · intro h; simp at h
  · rename_i x b _
    split
    · intro h; simp at h
    · split
      · intro h; simp at h
      · split
        · intro h; simp at h
        · intro _
          exact ⟨⟨x, rfl⟩, rfl, rfl⟩

theorem types_eq_kinds (tb : ToolBox) : types tb = (kinds tb).map Prod.fst := by
  simp [types, kinds]

theorem lastIsItem_types (tb : ToolBox) (h : lastIsItem tb = true) :
    types tb ≠ [] ∧ ∀ x ∈ (types tb).getLast?, x ≠ ToolBoxItemType.SEPARATOR := by
  unfold lastIsItem ToolBox.GetItemCount ToolBox.GetItemType at h
  simp only [Bool.and_eq_true, decide_eq_true_eq, bne_iff_ne, ne_eq] at h
  obtain ⟨hpos, hne⟩ := h
  constructor
  · intro h0
    simp [types] at h0
    simp [h0] at hpos
  · intro x hx
    simp only [types, List.getLast?_map, Option.mem_def, Option.map_eq_some'] at hx
    obtain ⟨it, hit, rfl⟩ := hx
    rw [List.getLast?_eq_getElem?] at hit
    rw [List.get?_eq_getElem?, hit] at hne
    exact hne

theorem Tidy_nil : Tidy [] := by
  simp [Tidy]

theorem Tidy_snoc_button (l : List ToolBoxItemType) (h : Tidy l) :
    Tidy (l ++ [ToolBoxItemType.BUTTON]) := by
  obtain ⟨h1, h2⟩ := h
  constructor
  · cases l with
    | nil => simp
    | cons a t => simpa using h1
  · rw [List.chain'_append]
    refine ⟨h2, List.chain'_singleton _, ?_⟩
    intro x _ y hy
    simp at hy
    subst hy
    simp

theorem Tidy_snoc_separator (l : List ToolBoxItemType) (h : Tidy l) (hne : l ≠ [])
    (hlast : ∀ x ∈ l.getLast?, x ≠ ToolBoxItemType.SEPARATOR) :
    Tidy (l ++ [ToolBoxItemType.SEPARATOR]) := by
  obtain ⟨h1, h2⟩ := h
  constructor
  · cases l with
    | nil => exact absurd rfl hne
    | cons a t => simpa using h1
  · rw [List.chain'_append]
    refine ⟨h2, List.chain'_singleton _, ?_⟩
    intro x hx y _ hxy
    exact hlast x hx hxy.1

theorem types_fillItem (env : Env) (m : OUString) (st : LoopState) (d : Descriptor) :
    types (fillItem env m st d).state.m_pToolBar =
      types st.m_pToolBar ++
        (if st.bAppendSeparator && lastIsItem st.m_pToolBar then [ToolBoxItemType.SEPARATOR]
          else []) ++ [ToolBoxItemType.BUTTON] := by
  rw [types_eq_kinds, kinds_fillItem, types_eq_kinds]
  cases (st.bAppendSeparator && lastIsItem st.m_pToolBar) <;> simp

theorem Tidy_fillItem (env : Env) (m : OUString) (st : LoopState) (d : Descriptor)
    (h : Tidy (types st.m_pToolBar)) : Tidy (types (fillItem env m st d).state.m_pToolBar) := by
  rw [types_fillItem]
  by_cases hc : (st.bAppendSeparator && lastIsItem st.m_pToolBar) = true
  · rw [if_pos hc]
    have hl : lastIsItem st.m_pToolBar = true := by
      simp only [Bool.and_eq_true] at hc
      exact hc.2
    obtain ⟨hne, hlast⟩ := lastIsItem_types _ hl
    exact Tidy_snoc_button _ (Tidy_snoc_separator _ h hne hlast)
  · rw [if_neg hc, List.append_nil]
    exact Tidy_snoc_button _ h

theorem kinds_fillSeparator (st : LoopState) :
    kinds (fillSeparator st).m_pToolBar =
      kinds st.m_pToolBar ++
        (if lastIsItem st.m_pToolBar && decide (st.nElements > 0) then
          [(ToolBoxItemType.SEPARATOR, 0)] else []) := by
  unfold fillSeparator lastIsItem
  dsimp only
  split <;> simp

theorem fillSeparator_map (st : LoopState) :
    (fillSeparator st).m_aControllerMap = st.m_aControllerMap := by
  unfold fillSeparator
  dsimp only
  split <;> rfl

theorem fillSeparator_nId (st : LoopState) : (fillSeparator st).nId = st.nId := by
  unfold fillSeparator
  dsimp only
  split <;> rfl

theorem Tidy_fillSeparator (st : LoopState) (h : Tidy (types st.m_pToolBar)) :
    Tidy (types (fillSeparator st).m_pToolBar) := by
  rw [types_eq_kinds, kinds_fillSeparator, ← types_eq_kinds] at *
  by_cases hc : (lastIsItem st.m_pToolBar && decide (st.nElements > 0)) = true
  · rw [if_pos hc]
    have hl : lastIsItem st.m_pToolBar = true := by
      simp only [Bool.and_eq_true] at hc
      exact hc.1
    obtain ⟨hne, hlast⟩ := lastIsItem_types _ hl
    simp only [List.map_append, List.map_cons, List.map_nil, ← types_eq_kinds]
    exact Tidy_snoc_separator _ h hne hlast
  · rw [if_neg hc, List.append_nil, ← types_eq_kinds]
    exact h

theorem fillLoop_invariant (env : Env) (m a : OUString) (P : LoopState → Prop)
    (hstep : ∀ st d, P st → P (fillStep env m a st d).state) :
    ∀ (ds : List Descriptor) (st : LoopState), P st → P (fillLoop env m a st ds).state := by
  intro ds
  induction ds with
  | nil => intro st h; exact h
  | cons d rest ih =>
    intro st h
    unfold fillLoop
    dsimp only
    split
    · exact hstep st d h
    · exact ih _ (hstep st d h)

theorem Tidy_fillStep (env : Env) (m a : OUString) (st : LoopState) (d : Descriptor)
    (h : Tidy (types st.m_pToolBar)) : Tidy (types (fillStep env m a st d).state.m_pToolBar) := by
  unfold fillStep
  split
  · split
    · exact Tidy_fillSeparator st h
    · exact Tidy_fillItem env m st d h
  · exact h

theorem Tidy_fillLoop (env : Env) (m a : OUString) (ds : List Descriptor) (st : LoopState)
    (h : Tidy (types st.m_pToolBar)) : Tidy (types (fillLoop env m a st ds).state.m_pToolBar) :=
  fillLoop_invariant env m a (fun s => Tidy (types s.m_pToolBar))
    (fun s d hs => Tidy_fillStep env m a s d hs) ds st h

theorem RemoveControllers_moduleIdentifier (self : AddonsToolBarManager) :
    (RemoveControllers self).m_aModuleIdentifier = self.m_aModuleIdentifier := by
  unfold RemoveControllers
  split <;> rfl

theorem FillToolbar_toolbar (env : Env) (self : AddonsToolBarManager) (ds : List Descriptor)
    (h : self.m_bDisposed = false) :
    (FillToolbar env self ds).state.m_pToolBar = (fillRun env self ds).state.m_pToolBar := by
  unfold FillToolbar fillRun startState
  simp only [h, Bool.false_eq_true, if_false, RemoveControllers_moduleIdentifier]
  split <;> rfl

theorem FillToolbar_map (env : Env) (self : AddonsToolBarManager) (ds : List Descriptor)
    (h : self.m_bDisposed = false) :
    (FillToolbar env self ds).state.m_aControllerMap = (fillRun env self ds).state.m_aControllerMap := by
  unfold FillToolbar fillRun startState
  simp only [h, Bool.false_eq_true, if_false, RemoveControllers_moduleIdentifier]
  split <;> rfl

theorem FillToolbar_threw (env : Env) (self : AddonsToolBarManager) (ds : List Descriptor)
    (h : self.m_bDisposed = false) :
    (FillToolbar env self ds).threw = (fillRun env self ds).threw := by
  unfold FillToolbar fillRun startState
  simp only [h, Bool.false_eq_true, if_false, RemoveControllers_moduleIdentifier]
  split
  · rename_i h1; rw [h1]
  · rename_i h1; simp at h1; rw [h1]

theorem types_startState (self : AddonsToolBarManager) : types (startState self).m_pToolBar = [] := rfl

theorem kinds_startState (self : AddonsToolBarManager) : kinds (startState self).m_pToolBar = [] := rfl

theorem Tidy_FillToolbar (env : Env) (self : AddonsToolBarManager) (ds : List Descriptor)
    (h : self.m_bDisposed = false) : Tidy (types (FillToolbar env self ds).state.m_pToolBar) := by
  rw [FillToolbar_toolbar env self ds h]
  exact Tidy_fillLoop env _ _ ds _ (by rw [types_startState]; exact Tidy_nil)

theorem mem_mapKeys_mapAssign (m : ToolBarControllerMap) (k : Nat) (v : XStatusListener) (k' : Nat) :
    k' ∈ mapKeys (mapAssign m k v) ↔ k' = k ∨ k' ∈ mapKeys m := by
  induction m with
  | nil => simp [mapAssign, mapKeys]
  | cons e t ih =>
    obtain ⟨ke, ve⟩ := e
    unfold mapAssign
    by_cases h : ke = k
    · simp [h, mapKeys]
    · simp only [h, if_false]
      simp only [mapKeys, List.map_cons, List.mem_cons] at ih ⊢
      rw [ih]
      tauto

theorem length_mapAssign (m : ToolBarControllerMap) (k : Nat) (v : XStatusListener) :
    (mapAssign m k v).length = if k ∈ mapKeys m then m.length else m.length + 1 := by
  induction m with
  | nil => simp [mapAssign, mapKeys]
  | cons e t ih =>
    obtain ⟨ke, ve⟩ := e
    unfold mapAssign
    by_cases h : ke = k
    · simp [h, mapKeys]
    · have h' : ¬ k = ke := fun hh => h hh.symm
      simp only [h, if_false, List.length_cons, ih, mapKeys, List.map_cons, List.mem_cons, h',
        false_or]
      split <;> rfl

theorem KeysAreButtons_fillStep (env : Env) (m a : OUString) (st : LoopState) (d : Descriptor)
    (h : KeysAreButtons st) : KeysAreButtons (fillStep env m a st d).state := by
  unfold fillStep
  split
  · split
    · intro k hk
      rw [fillSeparator_map] at hk
      rw [kinds_fillSeparator]
      exact List.mem_append_left _ (h k hk)
    · intro k hk
      rw [kinds_fillItem]
      rcases fillItem_map_cases env m st d with hm | ⟨x, hm⟩
      · rw [hm] at hk
        exact List.mem_append_left _ (List.mem_append_left _ (h k hk))
      · rw [hm, mem_mapKeys_mapAssign] at hk
        rcases hk with hk | hk
        · subst hk
          exact List.mem_append_right _ (List.mem_singleton.mpr rfl)
        · exact List.mem_append_left _ (List.mem_append_left _ (h k hk))
  · exact h

theorem KeysAreButtons_fillRun (env : Env) (self : AddonsToolBarManager) (ds : List Descriptor) :
    KeysAreButtons (fillRun env self ds).state := by
  unfold fillRun
  apply fillLoop_invariant env _ _ KeysAreButtons (KeysAreButtons_fillStep env _ _)
  intro k hk
  simp [startState, mapKeys] at hk

theorem Counted_assign (st : LoopState) (c : Nat) (x : XStatusListener) (h : Counted st c)
    (st' : LoopState) (hm : st'.m_aControllerMap = mapAssign st.m_aControllerMap st.nId x)
    (hn : st'.nId = (st.nId + 1) % 65536) : Counted st' (c + 1) := by
  obtain ⟨h1, h2, h3⟩ := h
  refine ⟨?_, ?_, ?_⟩
  · rw [hn, h1]; omega
  · rw [hm, length_mapAssign, h2]
    by_cases hc : c < 65536
    · have hnot : st.nId ∉ mapKeys st.m_aControllerMap := by
        intro hmem
        obtain ⟨j, hj, hjk⟩ := (h3 _).mp hmem
        rw [h1] at hjk
        omega
      rw [if_neg hnot]; omega
    · have hin : st.nId ∈ mapKeys st.m_aControllerMap := by
        apply (h3 _).mpr
        refine ⟨c - 65536, by omega, ?_⟩
        rw [h1]; omega
      rw [if_pos hin]; omega
  · intro k
    rw [hm, mem_mapKeys_mapAssign, h3, h1]
    constructor
    · rintro (hk | ⟨j, hj, hk⟩)
      · exact ⟨c, by omega, hk⟩
      · exact ⟨j, by omega, hk⟩
    · rintro ⟨j, hj, hk⟩
      by_cases hjc : j = c
      · subst hjc; exact Or.inl hk
      · exact Or.inr ⟨j, by omega, hk⟩

theorem Counted_fillStep (env : Env) (m a : OUString) (st : LoopState) (d : Descriptor) (c : Nat)
    (h : Counted st c) (hr : (fillStep env m a st d).threw = false) :
    Counted (fillStep env m a st d).state (c + if wanted a d then 1 else 0) := by
  unfold fillStep wanted at *
  by_cases h1 : IsCorrectContext a d.aContext = true
  · by_cases h2 : (d.aURL == privateSeparator) = true
    · simp only [h1, h2, if_true, Bool.not_true, Bool.and_false, Bool.false_eq_true, if_false,
        Nat.add_zero] at *
      exact ⟨by rw [fillSeparator_nId]; exact h.1, by rw [fillSeparator_map]; exact h.2.1,
        by rw [fillSeparator_map]; exact h.2.2⟩
    · simp only [h1, h2, if_true, if_false, Bool.not_eq_true] at hr
      simp only [h1, h2, if_true, if_false, Bool.true_and, Bool.not_eq_true]
      simp only [Bool.not_eq_true] at h2
      simp only [h2, Bool.not_false, if_true]
      obtain ⟨⟨x, hx⟩, hn, _⟩ := fillItem_returns env m st d hr
      exact Counted_assign st c x h _ hx hn
  · simp only [h1, Bool.false_eq_true, if_false, Bool.false_and, Nat.add_zero] at *
    exact h

theorem Counted_fillLoop (env : Env) (m a : OUString) :
    ∀ (ds : List Descriptor) (st : LoopState) (c : Nat), Counted st c →
      (fillLoop env m a st ds).threw = false →
      Counted (fillLoop env m a st ds).state (c + ds.countP (wanted a)) := by
  intro ds
  induction ds with
  | nil => intro st c h _; simpa [fillLoop] using h
  | cons d rest ih =>
    intro st c h hr
    unfold fillLoop at hr ⊢
    dsimp only at hr ⊢
    by_cases ht : (fillStep env m a st d).threw = true
    · rw [if_pos ht] at hr
      rw [ht] at hr
      exact absurd hr (by simp)
    · rw [if_neg ht] at hr ⊢
      simp only [Bool.not_eq_true] at ht
      have h1 := Counted_fillStep env m a st d c h ht
      have h2 := ih _ _ h1 hr
      rw [List.countP_cons]
      have e : c + (List.countP (wanted a) rest + if wanted a d = true then 1 else 0) =
          (c + if wanted a d = true then 1 else 0) + List.countP (wanted a) rest := by omega
      rw [e]
      exact h2

theorem Counted_startState (self : AddonsToolBarManager) : Counted (startState self) 0 := by
  refine ⟨rfl, rfl, ?_⟩
  intro k
  simp [startState, mapKeys]

theorem length_map_FillToolbar (env : Env) (self : AddonsToolBarManager) (ds : List Descriptor)
    (hLive : self.m_bDisposed = false) (hRet : (FillToolbar env self ds).threw = false) :
    (FillToolbar env self ds).state.m_aControllerMap.length =
      min (ds.countP (wanted (identifyModule env))) 65536 := by
  rw [FillToolbar_threw env self ds hLive] at hRet
  rw [FillToolbar_map env self ds hLive]
  have h := Counted_fillLoop env _ _ ds _ 0 (Counted_startState self) hRet
  rw [Nat.zero_add] at h
  exact h.2.1

theorem queryStatusListener_some (x : Option UnoObject) (o : UnoObject)
    (h : queryStatusListener x = some o) : x = some o := by
  unfold queryStatusListener at h
  cases x with
  | none => simp at h
  | some y =>
    simp only [Option.filter] at h
    split at h
    · exact h
    · simp at h

theorem createController_ok (env : Env) (m : OUString) (nId : Nat) (d : Descriptor)
    (h : UnguardedCallsReturn env) :
    ∃ x b, createController env m nId d = Outcome.ok (x, b) ∧
      ∀ o, x = some o → o.xToolbarController ≠ some Outcome.threw := by
  obtain ⟨h1, h2, h3, h4, h5⟩ := h
  unfold createController
  dsimp only
  split
  · rename_i hb
    split at hb
    · exact absurd hb (h1 _ _)
    · simp at hb
  · split
    · rename_i hs
      exact absurd hs h2
    · split
      · rename_i x hx
        exact ⟨_, _, rfl, fun o ho => h4 _ _ _ o (by rw [hx, queryStatusListener_some x o ho])⟩
      · exact ⟨_, _, rfl, fun o ho => by simp at ho⟩
  · split
    · rename_i hc
      exact absurd hc (h3 _ _ _ _)
    · rename_i x hx
      exact ⟨_, _, rfl, fun o ho => h5 _ _ _ _ o (by rw [hx, queryStatusListener_some x o ho])⟩

theorem initController_ok (env : Env) (x : XStatusListener) (b : Bool)
    (h : env.serviceManager ≠ Outcome.threw) : initController env x b = Outcome.ok () := by
  unfold initController
  split
  · split
    · split
      · rename_i hs; exact absurd hs h
      · rfl
    · rfl
  · rfl

theorem updateController_ok (x : XStatusListener) : updateController x = Outcome.ok () := by
  unfold updateController
  split <;> rfl

theorem requestItemWindow_ok (env : Env) (tb : ToolBox) (nId : Nat) (x : XStatusListener)
    (h : ∀ o, x = some o → o.xToolbarController ≠ some Outcome.threw) :
    (requestItemWindow env tb nId x).threw = false := by
  unfold requestItemWindow
  split
  · rename_i f hf
    split
    · split
      · exfalso
        cases x with
        | none => simp at hf
        | some o =>
          simp only [Option.bind] at hf
          exact h o rfl hf
      · split <;> rfl
    · rfl
  · rfl

theorem fillItem_ok (env : Env) (m : OUString) (st : LoopState) (d : Descriptor)
    (h : UnguardedCallsReturn env) : (fillItem env m st d).threw = false := by
  obtain ⟨x, b, hc, hx⟩ := createController_ok env m st.nId d h
  unfold fillItem
  dsimp only
  rw [hc]
  dsimp only
  rw [initController_ok env x b h.2.1]
  dsimp only
  rw [requestItemWindow_ok env _ st.nId x hx, updateController_ok]
  rfl

theorem fillStep_ok (env : Env) (m a : OUString) (st : LoopState) (d : Descriptor)
    (h : UnguardedCallsReturn env) : (fillStep env m a st d).threw = false := by
  unfold fillStep
  split
  · split
    · rfl
    · exact fillItem_ok env m st d h
  · rfl

theorem fillLoop_ok (env : Env) (m a : OUString) (h : UnguardedCallsReturn env) :
    ∀ (ds : List Descriptor) (st : LoopState), (fillLoop env m a st ds).threw = false := by
  intro ds
  induction ds with
  | nil => intro st; rfl
  | cons d rest ih =>
    intro st
    unfold fillLoop
    dsimp only
    rw [fillStep_ok env m a st d h]
    simp only [Bool.false_eq_true, if_false]
    exact ih _

theorem FillToolbar_ok (env : Env) (self : AddonsToolBarManager) (ds : List Descriptor)
    (h : UnguardedCallsReturn env) : (FillToolbar env self ds).threw = false := by
  by_cases hd : self.m_bDisposed = true
  · unfold FillToolbar
    rw [if_pos hd]
  · simp only [Bool.not_eq_true] at hd
    rw [FillToolbar_threw env self ds hd]
    exact fillLoop_ok env _ _ h ds _

theorem fillLoop_history (env : Env) (m a : OUString) (P : LoopState → List Descriptor → Prop)
    (hstep : ∀ st d p, P st p → (fillStep env m a st d).threw = false →
      P (fillStep env m a st d).state (p ++ [d])) :
    ∀ (ds : List Descriptor) (st : LoopState) (p : List Descriptor), P st p →
      (fillLoop env m a st ds).threw = false → P (fillLoop env m a st ds).state (p ++ ds) := by
  intro ds
  induction ds with
  | nil => intro st p h _; simpa [fillLoop] using h
  | cons d rest ih =>
    intro st p h hr
    unfold fillLoop at hr ⊢
    dsimp only at hr ⊢
    by_cases ht : (fillStep env m a st d).threw = true
    · rw [if_pos ht] at hr
      rw [ht] at hr
      exact absurd hr (by simp)
    · rw [if_neg ht] at hr ⊢
      simp only [Bool.not_eq_true] at ht
      have h2 := ih _ _ (hstep st d p h ht) hr
      simpa using h2

theorem quietEnv_unguarded (a : OUString) : UnguardedCallsReturn (quietEnv a) := by
  refine ⟨?_, ?_, ?_, ?_, ?_⟩
  · intro u m; simp [quietEnv]
  · simp [quietEnv]
  · intro u n w t; simp [quietEnv]
  · intro u m n o h; simp [quietEnv] at h
  · intro u n w t o h
    simp only [quietEnv, Outcome.ok.injEq, Option.some.injEq] at h
    subst h
    simp [plainController]

theorem wanted_false_of_context (a : OUString) (d : Descriptor)
    (h : ¬ IsCorrectContext a d.aContext = true) : wanted a d = false := by
  simp only [Bool.not_eq_true] at h
  simp [wanted, h]

theorem wanted_false_of_separator (a : OUString) (d : Descriptor)
    (h : (d.aURL == privateSeparator) = true) : wanted a d = false := by
  simp [wanted, h]

theorem wanted_true (a : OUString) (d : Descriptor) (h1 : IsCorrectContext a d.aContext = true)
    (h2 : ¬ (d.aURL == privateSeparator) = true) : wanted a d = true := by
  simp only [Bool.not_eq_true] at h2
  simp [wanted, h1, h2]

theorem countP_snoc_false (a : OUString) (p : List Descriptor) (d : Descriptor)
    (h : wanted a d = false) : (p ++ [d]).countP (wanted a) = p.countP (wanted a) := by
  simp [List.countP_append, List.countP_cons, h]

theorem countP_snoc_true (a : OUString) (p : List Descriptor) (d : Descriptor)
    (h : wanted a d = true) : (p ++ [d]).countP (wanted a) = p.countP (wanted a) + 1 := by
  simp [List.countP_append, List.countP_cons, h]

theorem buttonKinds_fillSeparator (st : LoopState) :
    buttonKinds (fillSeparator st).m_pToolBar = buttonKinds st.m_pToolBar := by
  unfold buttonKinds
  rw [kinds_fillSeparator]
  split <;> simp

theorem buttonKinds_fillItem (env : Env) (m : OUString) (st : LoopState) (d : Descriptor) :
    buttonKinds (fillItem env m st d).state.m_pToolBar =
      buttonKinds st.m_pToolBar ++ [(ToolBoxItemType.BUTTON, st.nId)] := by
  unfold buttonKinds
  rw [kinds_fillItem]
  split <;> simp

theorem Numbered_fillStep (env : Env) (m a : OUString) (st : LoopState) (d : Descriptor)
    (p : List Descriptor) (h : Numbered a st p)
    (hr : (fillStep env m a st d).threw = false) :
    Numbered a (fillStep env m a st d).state (p ++ [d]) := by
  unfold Numbered at *
  unfold fillStep at *
  by_cases h1 : IsCorrectContext a d.aContext = true
  · by_cases h2 : (d.aURL == privateSeparator) = true
    · rw [countP_snoc_false a p d (wanted_false_of_separator a d h2)]
      simp only [h1, h2, if_true]
      rw [fillSeparator_nId, buttonKinds_fillSeparator]
      exact h
    · rw [countP_snoc_true a p d (wanted_true a d h1 h2)]
      simp only [h1, h2, if_true, if_false, Bool.false_eq_true] at hr ⊢
      obtain ⟨_, hn, _⟩ := fillItem_returns env m st d hr
      rw [hn, buttonKinds_fillItem, h.2, h.1, List.range_succ, List.map_append]
      constructor
      · omega
      · simp
  · rw [countP_snoc_false a p d (wanted_false_of_context a d h1)]
    simp only [h1, if_false]
    exact h

theorem Numbered_fillRun (env : Env) (self : AddonsToolBarManager) (ds : List Descriptor)
    (hr : (fillRun env self ds).threw = false) :
    Numbered (identifyModule env) (fillRun env self ds).state ds := by
  have h := fillLoop_history env self.m_aModuleIdentifier (identifyModule env)
    (Numbered (identifyModule env)) (Numbered_fillStep env _ _) ds (startState self) []
    ⟨rfl, rfl⟩ hr
  simpa using h

theorem buttonKinds_FillToolbar (env : Env) (self : AddonsToolBarManager) (ds : List Descriptor)
    (hLive : self.m_bDisposed = false) (hRet : (FillToolbar env self ds).threw = false) :
    buttonKinds (FillToolbar env self ds).state.m_pToolBar =
      (List.range (ds.countP (wanted (identifyModule env)))).map
        (fun j => (ToolBoxItemType.BUTTON, (1 + j) % 65536)) := by
  rw [FillToolbar_threw env self ds hLive] at hRet
  rw [FillToolbar_toolbar env self ds hLive]
  exact (Numbered_fillRun env self ds hRet).2

theorem modifyItem_snoc (f : ImplToolItem → ImplToolItem) (nId : Nat) (l : List ImplToolItem)
    (x : ImplToolItem) (hl : ∀ it ∈ l, it.mnId ≠ nId) (hx : x.mnId = nId) :
    modifyItem f nId (l ++ [x]) = l ++ [f x] := by
  induction l with
  | nil => simp [modifyItem, hx]
  | cons a t ih =>
    have ha : a.mnId ≠ nId := hl a (List.mem_cons_self a t)
    have ht : ∀ it ∈ t, it.mnId ≠ nId := fun it hit => hl it (List.mem_cons_of_mem a hit)
    rw [List.cons_append, modifyItem, if_neg ha, ih ht]
    rfl

theorem items_insertToolbarItem (env : Env) (tb : ToolBox) (b : Bool) (nId : Nat) (d : Descriptor)
    (hfresh : ∀ it ∈ tb.m_aItems, it.mnId ≠ nId) (h0 : nId ≠ 0) :
    ∃ it, (insertToolbarItem env tb b nId d).m_aItems =
        (tb.m_aItems ++ (if b && lastIsItem tb then [separatorItem] else [])) ++ [it] ∧
      it.mnId = nId ∧ it.meType = ToolBoxItemType.BUTTON ∧ it.maCommandStr = d.aURL := by
  unfold insertToolbarItem lastIsItem
  simp only [Bool.and_assoc]
  generalize (b && (decide (tb.GetItemCount > 0) &&
      (tb.GetItemType (tb.GetItemCount - 1) != ToolBoxItemType.SEPARATOR))) = c
  generalize (!(env.GetCommandShortcut d.aURL).isEmpty) = e
  have hsep : ∀ it ∈ tb.m_aItems ++ [separatorItem], it.mnId ≠ nId := by
    intro it hit
    rcases List.mem_append.mp hit with h | h
    · exact hfresh it h
    · rw [List.mem_singleton.mp h]
      exact fun hh => h0 hh.symm
  cases c <;> cases e
  · simp only [Bool.false_eq_true, if_false, ToolBox.SetItemCommand, ToolBox.SetItemData,
      ToolBox.InsertItem, List.append_nil]
    rw [modifyItem_snoc _ _ _ _ hfresh rfl, modifyItem_snoc _ _ _ _ hfresh rfl]
    exact ⟨_, rfl, rfl, rfl, rfl⟩
  · simp only [Bool.false_eq_true, if_false, if_true, ToolBox.SetItemCommand, ToolBox.SetItemData,
      ToolBox.SetQuickHelpText, ToolBox.InsertItem, List.append_nil]
    rw [modifyItem_snoc _ _ _ _ hfresh rfl, modifyItem_snoc _ _ _ _ hfresh rfl,
      modifyItem_snoc _ _ _ _ hfresh rfl]
    exact ⟨_, rfl, rfl, rfl, rfl⟩
  · simp only [Bool.false_eq_true, if_false, if_true, ToolBox.SetItemCommand, ToolBox.SetItemData,
      ToolBox.InsertItem, ToolBox.InsertSeparator]
    rw [modifyItem_snoc _ _ _ _ hsep rfl, modifyItem_snoc _ _ _ _ hsep rfl]
    exact ⟨_, rfl, rfl, rfl, rfl⟩
  · simp only [if_true, ToolBox.SetItemCommand, ToolBox.SetItemData,
      ToolBox.SetQuickHelpText, ToolBox.InsertItem, ToolBox.InsertSeparator]
    rw [modifyItem_snoc _ _ _ _ hsep rfl, modifyItem_snoc _ _ _ _ hsep rfl,
      modifyItem_snoc _ _ _ _ hsep rfl]
    exact ⟨_, rfl, rfl, rfl, rfl⟩

theorem items_requestItemWindow (env : Env) (tb : ToolBox) (nId : Nat) (x : XStatusListener)
    (l : List ImplToolItem) (it : ImplToolItem) (htb : tb.m_aItems = l ++ [it])
    (hl : ∀ i ∈ l, i.mnId ≠ nId) (hit : it.mnId = nId) :
    ∃ it', (requestItemWindow env tb nId x).state.m_aItems = l ++ [it'] ∧
      it'.mnId = it.mnId ∧ it'.meType = it.meType ∧ it'.maCommandStr = it.maCommandStr := by
  unfold requestItemWindow
  split
  · split
    · split
      · exact ⟨it, htb, rfl, rfl, rfl⟩
      · split
        · simp only [ToolBox.SetItemWindow, htb]
          rw [modifyItem_snoc _ _ _ _ hl hit]
          exact ⟨_, rfl, rfl, rfl, rfl⟩
        · exact ⟨it, htb, rfl, rfl, rfl⟩
    · exact ⟨it, htb, rfl, rfl, rfl⟩
  · exact ⟨it, htb, rfl, rfl, rfl⟩

theorem items_fillItem (env : Env) (m : OUString) (st : LoopState) (d : Descriptor)
    (hfresh : ∀ it ∈ st.m_pToolBar.m_aItems, it.mnId ≠ st.nId) (h0 : st.nId ≠ 0) :
    ∃ it, (fillItem env m st d).state.m_pToolBar.m_aItems =
        (st.m_pToolBar.m_aItems ++
          (if st.bAppendSeparator && lastIsItem st.m_pToolBar then [separatorItem] else [])) ++ [it] ∧
      it.mnId = st.nId ∧ it.meType = ToolBoxItemType.BUTTON ∧ it.maCommandStr = d.aURL := by
  obtain ⟨it, hit, h1, h2, h3⟩ :=
    items_insertToolbarItem env st.m_pToolBar st.bAppendSeparator st.nId d hfresh h0
  have hl : ∀ i ∈ st.m_pToolBar.m_aItems ++
      (if st.bAppendSeparator && lastIsItem st.m_pToolBar then [separatorItem] else []),
      i.mnId ≠ st.nId := by
    intro i hi
    rcases List.mem_append.mp hi with h | h
    · exact hfresh i h
    · split at h
      · rw [List.mem_singleton.mp h]
        exact fun hh => h0 hh.symm
      · simp at h
  have hw : ∀ x, ∃ it', (requestItemWindow env
      (insertToolbarItem env st.m_pToolBar st.bAppendSeparator st.nId d) st.nId x).state.m_aItems =
        (st.m_pToolBar.m_aItems ++
          (if st.bAppendSeparator && lastIsItem st.m_pToolBar then [separatorItem] else [])) ++ [it'] ∧
      it'.mnId = st.nId ∧ it'.meType = ToolBoxItemType.BUTTON ∧ it'.maCommandStr = d.aURL := by
    intro x
    obtain ⟨it', e, g1, g2, g3⟩ := items_requestItemWindow env _ st.nId x _ it hit hl h1
    exact ⟨it', e, by rw [g1, h1], by rw [g2, h2], by rw [g3, h3]⟩
  unfold fillItem
  dsimp only
  split
  · exact ⟨it, hit, h1, h2, h3⟩
  · rename_i x b _
    split
    · exact ⟨it, hit, h1, h2, h3⟩
    · split
      · exact hw x
      · split
        · exact hw x
        · exact hw x

theorem items_fillSeparator (st : LoopState) :
    (fillSeparator st).m_pToolBar.m_aItems =
      st.m_pToolBar.m_aItems ++
        (if lastIsItem st.m_pToolBar && decide (st.nElements > 0) then [separatorItem] else []) := by
  unfold fillSeparator lastIsItem
  dsimp only
  split <;> simp [ToolBox.InsertSeparator]

theorem filter_snoc_false (a : OUString) (p : List Descriptor) (d : Descriptor)
    (h : wanted a d = false) : (p ++ [d]).filter (wanted a) = p.filter (wanted a) := by
  simp [List.filter_append, h]

theorem filter_snoc_true (a : OUString) (p : List Descriptor) (d : Descriptor)
    (h : wanted a d = true) : (p ++ [d]).filter (wanted a) = p.filter (wanted a) ++ [d] := by
  simp [List.filter_append, h]

theorem Laid_separator (a : OUString) (st : LoopState) (p : List Descriptor) (d : Descriptor)
    (hw : wanted a d = false) (h : Laid a st p) : Laid a (fillSeparator st) (p ++ [d]) := by
  unfold Laid at *
  rw [countP_snoc_false a p d hw, filter_snoc_false a p d hw]
  intro hc
  obtain ⟨h1, h2, h3⟩ := h hc
  rw [buttons, items_fillSeparator]
  refine ⟨?_, ?_, ?_⟩
  · intro it hit
    rcases List.mem_append.mp hit with g | g
    · exact h1 it g
    · split at g
      · rw [List.mem_singleton.mp g]; exact Nat.zero_le _
      · simp at g
  · intro it hit hs
    rcases List.mem_append.mp hit with g | g
    · exact h2 it g hs
    · split at g
      · rw [List.mem_singleton.mp g]; rfl
      · simp at g
  · rw [← h3, buttons]
    split <;> simp [separatorItem]

theorem Laid_item (env : Env) (m a : OUString) (st : LoopState) (p : List Descriptor)
    (d : Descriptor) (hw : wanted a d = true) (hn : Numbered a st p) (h : Laid a st p) :
    Laid a (fillItem env m st d).state (p ++ [d]) := by
  unfold Laid at *
  rw [countP_snoc_true a p d hw, filter_snoc_true a p d hw]
  intro hc
  obtain ⟨h1, h2, h3⟩ := h (by omega)
  have hid : st.nId = 1 + p.countP (wanted a) := by
    rw [hn.1]; omega
  have hfresh : ∀ it ∈ st.m_pToolBar.m_aItems, it.mnId ≠ st.nId := by
    intro it hit
    have := h1 it hit
    omega
  obtain ⟨it, hitems, g1, g2, g3⟩ := items_fillItem env m st d hfresh (by omega)
  rw [buttons, hitems]
  refine ⟨?_, ?_, ?_⟩
  · intro i hi
    rcases List.mem_append.mp hi with g | g
    · rcases List.mem_append.mp g with g | g
      · have := h1 i g
        omega
      · split at g
        · rw [List.mem_singleton.mp g]; exact Nat.zero_le _
        · simp at g
    · rw [List.mem_singleton.mp g, g1, hid]; omega
  · intro i hi hs
    rcases List.mem_append.mp hi with g | g
    · rcases List.mem_append.mp g with g | g
      · exact h2 i g hs
      · split at g
        · rw [List.mem_singleton.mp g]; rfl
        · simp at g
    · rw [List.mem_singleton.mp g, g2] at hs
      exact absurd hs (by decide)
  · rw [List.enumFrom_append, List.map_append, ← h3, buttons, ← List.countP_eq_length_filter]
    have hb : ([it].filter (fun i => i.meType != ToolBoxItemType.SEPARATOR)) = [it] := by
      simp [g2]
    split
    · simp [List.filter_append, hb, separatorItem, g1, g3, hid]
    · simp [List.filter_append, hb, g1, g3, hid]

theorem Laid_fillStep (env : Env) (m a : OUString) (st : LoopState) (d : Descriptor)
    (p : List Descriptor) (hn : Numbered a st p) (h : Laid a st p) :
    Laid a (fillStep env m a st d).state (p ++ [d]) := by
  unfold fillStep
  by_cases h1 : IsCorrectContext a d.aContext = true
  · by_cases h2 : (d.aURL == privateSeparator) = true
    · simp only [h1, h2, if_true]
      exact Laid_separator a st p d (wanted_false_of_separator a d h2) h
    · simp only [h1, h2, if_true, if_false, Bool.false_eq_true]
      exact Laid_item env m a st p d (wanted_true a d h1 h2) hn h
  · simp only [h1, if_false, Bool.false_eq_true]
    have hw := wanted_false_of_context a d h1
    unfold Laid at *
    rw [countP_snoc_false a p d hw, filter_snoc_false a p d hw]
    exact h

theorem Laid_fillRun (env : Env) (self : AddonsToolBarManager) (ds : List Descriptor)
    (hr : (fillRun env self ds).threw = false) :
    Laid (identifyModule env) (fillRun env self ds).state ds := by
  have h := fillLoop_history env self.m_aModuleIdentifier (identifyModule env)
    (fun st p => Numbered (identifyModule env) st p ∧ Laid (identifyModule env) st p)
    (fun st d p hp ht => ⟨Numbered_fillStep env _ _ st d p hp.1 ht,
      Laid_fillStep env _ _ st d p hp.1 hp.2⟩)
    ds (startState self) [] ⟨⟨rfl, rfl⟩, ?_⟩ hr
  · simpa using h.2
  · intro _
    refine ⟨?_, ?_, ?_⟩
    · intro it hit; simp [startState, ToolBox.Clear] at hit
    · intro it hit; simp [startState, ToolBox.Clear] at hit
    · simp [buttons, startState, ToolBox.Clear]

theorem lastIsItem_of_empty (tb : ToolBox) (h : tb.m_aItems = []) : lastIsItem tb = false := by
  simp [lastIsItem, ToolBox.GetItemCount, h]

theorem fillStep_unwanted (env : Env) (m a : OUString) (st : LoopState) (d : Descriptor)
    (h : st.m_pToolBar.m_aItems = []) (hw : wanted a d = false) :
    (fillStep env m a st d).threw = false ∧ (fillStep env m a st d).state.m_pToolBar.m_aItems = [] := by
  unfold fillStep
  by_cases h1 : IsCorrectContext a d.aContext = true
  · by_cases h2 : (d.aURL == privateSeparator) = true
    · simp only [h1, h2, if_true]
      refine ⟨trivial, ?_⟩
      rw [items_fillSeparator, lastIsItem_of_empty _ h, h]
      rfl
    · rw [wanted_true a d h1 h2] at hw
      exact absurd hw (by simp)
  · simp only [h1, if_false, Bool.false_eq_true]
    exact ⟨trivial, h⟩

theorem fillLoop_unwanted (env : Env) (m a : OUString) :
    ∀ (ds : List Descriptor) (st : LoopState), st.m_pToolBar.m_aItems = [] →
      (∀ d ∈ ds, wanted a d = false) →
      (fillLoop env m a st ds).state.m_pToolBar.m_aItems = [] := by
  intro ds
  induction ds with
  | nil => intro st h _; exact h
  | cons d rest ih =>
    intro st h hall
    obtain ⟨h1, h2⟩ := fillStep_unwanted env m a st d h (hall d (List.mem_cons_self d rest))
    unfold fillLoop
    dsimp only
    rw [h1]
    simp only [Bool.false_eq_true, if_false]
    exact ih _ h2 (fun x hx => hall x (List.mem_cons_of_mem d hx))

theorem foldl_SetItemWindow_frame (g : Nat → Nat) :
    ∀ (l : List Nat) (tb : ToolBox),
      (l.foldl (fun tb i => if g i > 0 then tb.SetItemWindow (g i) none else tb) tb).meBtnSize =
          tb.meBtnSize ∧
      (l.foldl (fun tb i => if g i > 0 then tb.SetItemWindow (g i) none else tb) tb).maOutSize =
          tb.maOutSize := by
  intro l
  induction l with
  | nil => intro tb; exact ⟨rfl, rfl⟩
  | cons i t ih =>
    intro tb
    rw [List.foldl_cons]
    obtain ⟨h1, h2⟩ := ih (if g i > 0 then tb.SetItemWindow (g i) none else tb)
    rw [h1, h2]
    split <;> exact ⟨rfl, rfl⟩

theorem startState_eq (self : AddonsToolBarManager) :
    startState self =
      ⟨⟨[], self.m_pToolBar.meBtnSize, self.m_pToolBar.maOutSize⟩, [], 1, 0, false⟩ := by
  unfold startState RemoveControllers ToolBox.Clear
  split
  · rfl
  · dsimp only
    obtain ⟨h1, h2⟩ := foldl_SetItemWindow_frame (fun i => self.m_pToolBar.GetItemId i)
      (List.range self.m_pToolBar.GetItemCount) self.m_pToolBar
    rw [h1, h2]

theorem frameOf_insertToolbarItem (env : Env) (tb : ToolBox) (b : Bool) (nId : Nat) (d : Descriptor) :
    frameOf (insertToolbarItem env tb b nId d) = frameOf tb := by
  unfold insertToolbarItem
  dsimp only
  split <;> split <;> rfl

theorem frameOf_requestItemWindow (env : Env) (tb : ToolBox) (nId : Nat) (x : XStatusListener) :
    frameOf (requestItemWindow env tb nId x).state = frameOf tb := by
  unfold requestItemWindow
  split
  · split
    · split
      · rfl
      · split <;> rfl
    · rfl
  · rfl

theorem frameOf_fillItem (env : Env) (m : OUString) (st : LoopState) (d : Descriptor) :
    frameOf (fillItem env m st d).state.m_pToolBar = frameOf st.m_pToolBar := by
  unfold fillItem
  dsimp only
  split
  · exact frameOf_insertToolbarItem _ _ _ _ _
  · split
    · exact frameOf_insertToolbarItem _ _ _ _ _
    · split
      · dsimp only
        rw [frameOf_requestItemWindow]
        exact frameOf_insertToolbarItem _ _ _ _ _
      · split
        · dsimp only
          rw [frameOf_requestItemWindow]
          exact frameOf_insertToolbarItem _ _ _ _ _
        · dsimp only
          rw [frameOf_requestItemWindow]
          exact frameOf_insertToolbarItem _ _ _ _ _

theorem frameOf_fillStep (env : Env) (m a : OUString) (st : LoopState) (d : Descriptor) :
    frameOf (fillStep env m a st d).state.m_pToolBar = frameOf st.m_pToolBar := by
  unfold fillStep
  split
  · split
    · unfold fillSeparator
      dsimp only
      split <;> rfl
    · exact frameOf_fillItem env m st d
  · rfl

theorem frameOf_fillRun (env : Env) (self : AddonsToolBarManager) (ds : List Descriptor) :
    frameOf (fillRun env self ds).state.m_pToolBar = frameOf self.m_pToolBar := by
  unfold fillRun
  apply fillLoop_invariant env _ _ (fun st => frameOf st.m_pToolBar = frameOf self.m_pToolBar)
  · intro st d h
    rw [frameOf_fillStep]
    exact h
  · rw [startState_eq]
    rfl

theorem RemoveControllers_live (self : AddonsToolBarManager) (h : self.m_bDisposed = false) :
    (RemoveControllers self).m_bDisposed = false ∧
      (RemoveControllers self).m_bFrameActionRegistered = self.m_bFrameActionRegistered := by
  unfold RemoveControllers
  rw [h]
  exact ⟨rfl, rfl⟩

theorem FillToolbar_live (env : Env) (self : AddonsToolBarManager) (ds : List Descriptor)
    (h : self.m_bDisposed = false) :
    FillToolbar env self ds =
      ⟨{ m_bDisposed := false
         m_aModuleIdentifier := self.m_aModuleIdentifier
         m_pToolBar := (fillRun env self ds).state.m_pToolBar
         m_aControllerMap := (fillRun env self ds).state.m_aControllerMap
         m_bFrameActionRegistered :=
           if (fillRun env self ds).threw then self.m_bFrameActionRegistered else true },
        (fillRun env self ds).threw⟩ := by
  obtain ⟨h1, h2⟩ := RemoveControllers_live self h
  unfold FillToolbar fillRun startState AddFrameActionListener
  simp only [h, Bool.false_eq_true, if_false, RemoveControllers_moduleIdentifier, h1, h2]
  split
  · rename_i ht; rw [ht]
  · rename_i ht
    simp only [Bool.not_eq_true] at ht
    rw [ht]

theorem fillRun_congr (env : Env) (s s' : AddonsToolBarManager) (ds : List Descriptor)
    (hm : s'.m_aModuleIdentifier = s.m_aModuleIdentifier)
    (hf : frameOf s'.m_pToolBar = frameOf s.m_pToolBar) : fillRun env s' ds = fillRun env s ds := by
  unfold fillRun
  rw [startState_eq, startState_eq, hm]
  simp only [frameOf, Prod.mk.injEq] at hf
  rw [hf.1, hf.2]

theorem fillRun_after (env : Env) (self : AddonsToolBarManager) (ds ds' : List Descriptor)
    (h : self.m_bDisposed = false) :
    fillRun env (FillToolbar env self ds).state ds' = fillRun env self ds' := by
  apply fillRun_congr
  · rw [FillToolbar_live env self ds h]
  · rw [FillToolbar_live env self ds h]
    exact frameOf_fillRun env self ds

theorem FillToolbar_idempotent_aux (env : Env) (self : AddonsToolBarManager) (ds : List Descriptor) :
    FillToolbar env (FillToolbar env self ds).state ds = FillToolbar env self ds := by
  by_cases hd : self.m_bDisposed = true
  · have e : FillToolbar env self ds = ⟨self, false⟩ := by
      unfold FillToolbar
      rw [if_pos hd]
    rw [e]
    exact e
  · simp only [Bool.not_eq_true] at hd
    have hlive' : (FillToolbar env self ds).state.m_bDisposed = false := by
      rw [FillToolbar_live env self ds hd]
    rw [FillToolbar_live env _ ds hlive', fillRun_after env self ds ds hd]
    rw [FillToolbar_live env self ds hd]
    cases (fillRun env self ds).threw <;> rfl

theorem FillToolbar_map_after (env : Env) (self : AddonsToolBarManager) (ds ds' : List Descriptor) :
    (FillToolbar env (FillToolbar env self ds).state ds').state.m_aControllerMap =
      (FillToolbar env self ds').state.m_aControllerMap := by
  by_cases hd : self.m_bDisposed = true
  · have e : FillToolbar env self ds = ⟨self, false⟩ := by
      unfold FillToolbar
      rw [if_pos hd]
    rw [e]
  · simp only [Bool.not_eq_true] at hd
    have hlive' : (FillToolbar env self ds).state.m_bDisposed = false := by
      rw [FillToolbar_live env self ds hd]
    rw [FillToolbar_map env _ ds' hlive', fillRun_after env self ds ds' hd,
      FillToolbar_map env self ds' hd]

theorem identifyModule_threw (env : Env) (h : env.identify = Outcome.threw) :
    identifyModule env = [] := by
  unfold identifyModule
  rw [h]

theorem IsCorrectContext_nil_left (c : OUString) : IsCorrectContext [] c = c.isEmpty := by
  unfold IsCorrectContext
  cases c <;> simp

theorem IsCorrectContext_nil_right (a : OUString) : IsCorrectContext a [] = true := by
  unfold IsCorrectContext
  simp

theorem fillLoop_unrestricted (env : Env) (m a : OUString) :
    ∀ (ds : List Descriptor) (st : LoopState),
      fillLoop env m [] st ds = fillLoop env m a st (ds.filter (fun d => d.aContext.isEmpty)) := by
  intro ds
  induction ds with
  | nil => intro st; rfl
  | cons d rest ih =>
    intro st
    by_cases hc : d.aContext.isEmpty = true
    · have hnil : d.aContext = [] := List.isEmpty_iff.mp hc
      have e : fillStep env m [] st d = fillStep env m a st d := by
        unfold fillStep
        rw [hnil, IsCorrectContext_nil_right, IsCorrectContext_nil_right]
      have hf : (d :: rest).filter (fun d => d.aContext.isEmpty) =
          d :: rest.filter (fun d => d.aContext.isEmpty) := by
        simp [List.filter_cons, hc]
      rw [hf]
      unfold fillLoop
      dsimp only
      rw [e]
      split
      · rfl
      · exact ih _
    · have e : fillStep env m [] st d = ⟨st, false⟩ := by
        unfold fillStep
        rw [IsCorrectContext_nil_left]
        simp only [hc, if_false, Bool.false_eq_true]
      have hf : (d :: rest).filter (fun d => d.aContext.isEmpty) =
          rest.filter (fun d => d.aContext.isEmpty) := by
        simp [List.filter_cons, hc]
      rw [hf]
      conv_lhs => unfold fillLoop
      dsimp only
      rw [e]
      simp only [Bool.false_eq_true, if_false]
      exact ih _

theorem fillLoop_identify (env : Env) (x : Outcome OUString) (m a : OUString) :
    ∀ (ds : List Descriptor) (st : LoopState),
      fillLoop { env with identify := x } m a st ds = fillLoop env m a st ds := by
  intro ds
  induction ds with
  | nil => intro st; rfl
  | cons d rest ih =>
    intro st
    have e : fillStep { env with identify := x } m a st d = fillStep env m a st d := rfl
    unfold fillLoop
    dsimp only
    rw [e]
    split
    · rfl
    · exact ih _

theorem FillToolbar_identify_threw (env : Env) (self : AddonsToolBarManager) (ds : List Descriptor)
    (h : env.identify = Outcome.threw) (a : OUString) :
    FillToolbar env self ds =
      FillToolbar { env with identify := Outcome.ok a } self
        (ds.filter (fun d => d.aContext.isEmpty)) := by
  by_cases hd : self.m_bDisposed = true
  · unfold FillToolbar
    rw [if_pos hd, if_pos hd]
  · simp only [Bool.not_eq_true] at hd
    rw [FillToolbar_live env self ds hd, FillToolbar_live _ self _ hd]
    have e : fillRun env self ds =
        fillRun { env with identify := Outcome.ok a } self (ds.filter (fun d => d.aContext.isEmpty)) := by
      unfold fillRun
      rw [identifyModule_threw env h]
      have : identifyModule { env with identify := Outcome.ok a } = a := rfl
      rw [this, fillLoop_unrestricted env _ a]
      exact (fillLoop_identify env (Outcome.ok a) _ a _ _).symm
    rw [e]

theorem RetrieveImage_no_imageId (src : ImageSources) (aURL : OUString) (bBigImage : Bool)
    (h : src.GetImageFromURL aURL bBigImage = none) :
    RetrieveImage src [] aURL bBigImage =
      src.GetImageForCommand [] (if bBigImage then ImageType.Size26 else ImageType.Size16) := by
  unfold RetrieveImage
  simp [h]

theorem chain_adjacent {α : Type} (R : α → α → Prop) :
    ∀ (l : List α) (i : Nat) (a b : α), l.Chain' R → l[i]? = some a → l[i + 1]? = some b → R a b := by
  intro l
  induction l with
  | nil => intro i a b _ h; simp at h
  | cons x t ih =>
    intro i a b hc ha hb
    cases i with
    | zero =>
      cases t with
      | nil => simp at hb
      | cons y u =>
        simp only [List.getElem?_cons_zero, Option.some.injEq, zero_add, List.getElem?_cons_succ] at ha hb
        subst ha; subst hb
        exact (List.chain'_cons.mp hc).1
    | succ j =>
      simp only [List.getElem?_cons_succ] at ha hb
      exact ih j a b (List.Chain'.tail hc) ha hb

theorem GetItemType_eq_separator (tb : ToolBox) (nPos : Nat)
    (h : tb.GetItemType nPos = ToolBoxItemType.SEPARATOR) :
    (types tb)[nPos]? = some ToolBoxItemType.SEPARATOR := by
  unfold ToolBox.GetItemType at h
  unfold types
  rw [List.getElem?_map]
  rw [List.get?_eq_getElem?] at h
  cases hx : tb.m_aItems[nPos]? with
  | none => rw [hx] at h; simp at h
  | some it => rw [hx] at h; simp at h; simp [h]

theorem fillSeparator_twice (st : LoopState) : fillSeparator (fillSeparator st) = fillSeparator st := by
  by_cases hc : (decide (st.m_pToolBar.GetItemCount > 0) &&
      (st.m_pToolBar.GetItemType (st.m_pToolBar.GetItemCount - 1) != ToolBoxItemType.SEPARATOR) &&
      decide (st.nElements > 0)) = true
  · have e : fillSeparator st =
        { st with nElements := 0, m_pToolBar := st.m_pToolBar.InsertSeparator } := by
      unfold fillSeparator
      dsimp only
      rw [if_pos hc]
    rw [e]
    unfold fillSeparator
    simp
  · have e : fillSeparator st = st := by
      unfold fillSeparator
      dsimp only
      rw [if_neg hc]
    rw [e, e]

theorem buttonKinds_eq_buttons (tb : ToolBox) :
    buttonKinds tb = (buttons tb).map (fun it => (it.meType, it.mnId)) := by
  unfold buttonKinds buttons kinds
  rw [List.filter_map]
  rfl

theorem wanted_saveDescriptor : wanted (identifyModule (quietEnv [])) saveDescriptor = true := by
  decide

theorem guardedFailuresEnv_unguarded : UnguardedCallsReturn guardedFailuresEnv := by
  refine ⟨?_, ?_, ?_, ?_, ?_⟩
  · intro u m; simp [guardedFailuresEnv]
  · simp [guardedFailuresEnv]
  · intro u n w t; simp [guardedFailuresEnv]
  · intro u m n o h; simp [guardedFailuresEnv] at h
  · intro u n w t o h
    simp only [guardedFailuresEnv, Outcome.ok.injEq, Option.some.injEq] at h
    subst h
    simp [brokenController]

/-! ## The properties of the specification -/

/-- C1, as amended: on a live manager, when `FillToolbar` returns and at most 65536
descriptors are accepted by `IsCorrectContext` for the identified module without being
`"private:separator"`, the controller mapping holds exactly one entry per such
descriptor. -/
theorem FillToolbar_controller_count (env : Env) (self : AddonsToolBarManager)
    (rAddonToolbar : List Descriptor) (hLive : self.m_bDisposed = false)
    (hReturns : (FillToolbar env self rAddonToolbar).threw = false)
    (hBound : rAddonToolbar.countP (wanted (identifyModule env)) ≤ 65536) :
    (FillToolbar env self rAddonToolbar).state.m_aControllerMap.length =
      rAddonToolbar.countP (wanted (identifyModule env)) := by
  rw [length_map_FillToolbar env self rAddonToolbar hLive hReturns]
  exact Nat.min_eq_left hBound

/-- The example of the specification meets the hypotheses of the count of the
controller mapping, and has two entries. -/
theorem FillToolbar_controller_count_witness :
    freshManager.m_bDisposed = false ∧
      (FillToolbar textEnv freshManager exampleToolbar).threw = false ∧
      exampleToolbar.countP (wanted (identifyModule textEnv)) ≤ 65536 ∧
      (FillToolbar textEnv freshManager exampleToolbar).state.m_aControllerMap.length =
        exampleToolbar.countP (wanted (identifyModule textEnv)) ∧
      exampleToolbar.countP (wanted (identifyModule textEnv)) = 2 :=
  ⟨rfl, by decide, by decide,
    FillToolbar_controller_count textEnv freshManager exampleToolbar rfl (by decide) (by decide),
    by decide⟩

/-- With 65537 accepted descriptors the identifier has wrapped: the mapping holds
65536 entries. -/
theorem FillToolbar_controller_count_counterexample :
    freshManager.m_bDisposed = false ∧
      (FillToolbar (quietEnv []) freshManager (List.replicate 65537 saveDescriptor)).threw = false ∧
      (FillToolbar (quietEnv []) freshManager
        (List.replicate 65537 saveDescriptor)).state.m_aControllerMap.length = 65536 ∧
      (List.replicate 65537 saveDescriptor).countP (wanted (identifyModule (quietEnv []))) = 65537 := by
  have hc : (List.replicate 65537 saveDescriptor).countP (wanted (identifyModule (quietEnv []))) =
      65537 := by
    rw [List.countP_replicate, if_pos wanted_saveDescriptor]
  have hr := FillToolbar_ok (quietEnv []) freshManager (List.replicate 65537 saveDescriptor)
    (quietEnv_unguarded [])
  refine ⟨rfl, hr, ?_, hc⟩
  rw [length_map_FillToolbar _ _ _ rfl hr, hc]
  rfl

/-- C2: on a live manager the toolbar left by `FillToolbar` has no two separators at
neighbouring positions, whatever the descriptors and the collaborators do; and a
second separator request right after a first one changes nothing. -/
theorem FillToolbar_no_adjacent_separators (env : Env) (self : AddonsToolBarManager)
    (rAddonToolbar : List Descriptor) (hLive : self.m_bDisposed = false) :
    (∀ nPos : Nat,
      ¬ ((FillToolbar env self rAddonToolbar).state.m_pToolBar.GetItemType nPos =
            ToolBoxItemType.SEPARATOR ∧
          (FillToolbar env self rAddonToolbar).state.m_pToolBar.GetItemType (nPos + 1) =
            ToolBoxItemType.SEPARATOR)) ∧
      ∀ st : LoopState, fillSeparator (fillSeparator st) = fillSeparator st := by
  refine ⟨?_, fillSeparator_twice⟩
  intro nPos h
  have hc := (Tidy_FillToolbar env self rAddonToolbar hLive).2
  exact chain_adjacent _ _ nPos _ _ hc (GetItemType_eq_separator _ _ h.1)
    (GetItemType_eq_separator _ _ h.2) ⟨rfl, rfl⟩

/-- Two separator requests in a row between two commands leave one separator. -/
theorem FillToolbar_no_adjacent_separators_witness :
    freshManager.m_bDisposed = false ∧
      ((∀ nPos : Nat,
        ¬ ((FillToolbar textEnv freshManager
              [saveDescriptor, mkDescriptor privateSeparator [], mkDescriptor privateSeparator [],
                printDescriptor]).state.m_pToolBar.GetItemType nPos = ToolBoxItemType.SEPARATOR ∧
          (FillToolbar textEnv freshManager
              [saveDescriptor, mkDescriptor privateSeparator [], mkDescriptor privateSeparator [],
                printDescriptor]).state.m_pToolBar.GetItemType (nPos + 1) =
            ToolBoxItemType.SEPARATOR)) ∧
        ∀ st : LoopState, fillSeparator (fillSeparator st) = fillSeparator st) ∧
      types (FillToolbar textEnv freshManager
          [saveDescriptor, mkDescriptor privateSeparator [], mkDescriptor privateSeparator [],
            printDescriptor]).state.m_pToolBar =
        [ToolBoxItemType.BUTTON, ToolBoxItemType.SEPARATOR, ToolBoxItemType.BUTTON] :=
  ⟨rfl, FillToolbar_no_adjacent_separators textEnv freshManager _ rfl, by decide⟩

/-- C3: on a live manager, as long as no accepted descriptor other than
`"private:separator"` has been met, `FillToolbar` inserts nothing, and the first item
of the toolbar it leaves is never a separator. -/
theorem FillToolbar_no_leading_separator (env : Env) (self : AddonsToolBarManager)
    (rAddonToolbar : List Descriptor) (hLive : self.m_bDisposed = false) :
    ((∀ d ∈ rAddonToolbar, IsCorrectContext (identifyModule env) d.aContext = true →
        d.aURL = privateSeparator) →
      (FillToolbar env self rAddonToolbar).state.m_pToolBar.m_aItems = []) ∧
    ∀ it, (FillToolbar env self rAddonToolbar).state.m_pToolBar.m_aItems.head? = some it →
      it.meType ≠ ToolBoxItemType.SEPARATOR := by
  constructor
  · intro hall
    rw [FillToolbar_toolbar env self rAddonToolbar hLive]
    apply fillLoop_unwanted env _ _ rAddonToolbar _ (by rw [startState_eq])
    intro d hd
    unfold wanted
    by_cases hc : IsCorrectContext (identifyModule env) d.aContext = true
    · rw [hall d hd hc]
      simp
    · simp only [Bool.not_eq_true] at hc
      rw [hc]
      rfl
  · intro it hit hsep
    have h := (Tidy_FillToolbar env self rAddonToolbar hLive).1
    apply h
    unfold types
    rw [List.head?_map, hit]
    simp [hsep]

/-- Two separator requests on an empty toolbar insert nothing. -/
theorem FillToolbar_no_leading_separator_witness :
    freshManager.m_bDisposed = false ∧
      (((∀ d ∈ [mkDescriptor privateSeparator [], mkDescriptor privateSeparator []],
          IsCorrectContext (identifyModule textEnv) d.aContext = true → d.aURL = privateSeparator) →
        (FillToolbar textEnv freshManager
          [mkDescriptor privateSeparator [], mkDescriptor privateSeparator []]).state.m_pToolBar.m_aItems
            = []) ∧
      ∀ it, (FillToolbar textEnv freshManager
          [mkDescriptor privateSeparator [], mkDescriptor privateSeparator []]).state.m_pToolBar.m_aItems.head?
            = some it → it.meType ≠ ToolBoxItemType.SEPARATOR) :=
  ⟨rfl, FillToolbar_no_leading_separator textEnv freshManager _ rfl⟩

/-- C4: running `FillToolbar` a second time with the same descriptors and the same
collaborators gives the result of the first run, the controller mapping included;
and the mapping after any second run is the one that run builds on its own, so that
no entry of the first run is left in it. -/
theorem FillToolbar_idempotent (env : Env) (self : AddonsToolBarManager)
    (rAddonToolbar : List Descriptor) :
    FillToolbar env (FillToolbar env self rAddonToolbar).state rAddonToolbar =
        FillToolbar env self rAddonToolbar ∧
      ∀ rNext : List Descriptor,
        (FillToolbar env (FillToolbar env self rAddonToolbar).state rNext).state.m_aControllerMap =
          (FillToolbar env self rNext).state.m_aControllerMap :=
  ⟨FillToolbar_idempotent_aux env self rAddonToolbar,
    fun rNext => FillToolbar_map_after env self rAddonToolbar rNext⟩

/-- C5, as amended: on a live manager, when `FillToolbar` returns and fewer than
65536 descriptors are accepted and not separators, the buttons of the toolbar are
these descriptors in input order, the k-th (from 1) with identifier k and its URL as
command; every separator has the identifier 0, which no button has. -/
theorem FillToolbar_identifiers_and_commands (env : Env) (self : AddonsToolBarManager)
    (rAddonToolbar : List Descriptor) (hLive : self.m_bDisposed = false)
    (hReturns : (FillToolbar env self rAddonToolbar).threw = false)
    (hBound : rAddonToolbar.countP (wanted (identifyModule env)) < 65536) :
    (buttons (FillToolbar env self rAddonToolbar).state.m_pToolBar).map
        (fun it => (it.mnId, it.maCommandStr)) =
      ((rAddonToolbar.filter (wanted (identifyModule env))).enumFrom 1).map
        (fun kd => (kd.1, kd.2.aURL)) ∧
    ∀ it ∈ (FillToolbar env self rAddonToolbar).state.m_pToolBar.m_aItems,
      it.meType = ToolBoxItemType.SEPARATOR → it.mnId = 0 := by
  rw [FillToolbar_threw env self rAddonToolbar hLive] at hReturns
  rw [FillToolbar_toolbar env self rAddonToolbar hLive]
  obtain ⟨_, h2, h3⟩ := Laid_fillRun env self rAddonToolbar hReturns hBound
  exact ⟨h3, h2⟩

/-- The example of the specification: items `[Save, separator, Print]` with the
identifiers 1, none (0), 2. -/
theorem FillToolbar_identifiers_and_commands_witness :
    freshManager.m_bDisposed = false ∧
      (FillToolbar textEnv freshManager exampleToolbar).threw = false ∧
      exampleToolbar.countP (wanted (identifyModule textEnv)) < 65536 ∧
      ((buttons (FillToolbar textEnv freshManager exampleToolbar).state.m_pToolBar).map
          (fun it => (it.mnId, it.maCommandStr)) =
        ((exampleToolbar.filter (wanted (identifyModule textEnv))).enumFrom 1).map
          (fun kd => (kd.1, kd.2.aURL)) ∧
      ∀ it ∈ (FillToolbar textEnv freshManager exampleToolbar).state.m_pToolBar.m_aItems,
        it.meType = ToolBoxItemType.SEPARATOR → it.mnId = 0) ∧
      (FillToolbar textEnv freshManager exampleToolbar).state.m_pToolBar.m_aItems.map itemView =
        [(ToolBoxItemType.BUTTON, 1, ou "cmd:Save"), (ToolBoxItemType.SEPARATOR, 0, []),
          (ToolBoxItemType.BUTTON, 2, ou "cmd:Print")] :=
  ⟨rfl, by decide, by decide,
    FillToolbar_identifiers_and_commands textEnv freshManager exampleToolbar rfl (by decide)
      (by decide), by decide⟩

/-- With 65536 accepted descriptors the last button carries the identifier 0. -/
theorem FillToolbar_identifiers_and_commands_counterexample :
    freshManager.m_bDisposed = false ∧
      (FillToolbar (quietEnv []) freshManager (List.replicate 65536 saveDescriptor)).threw = false ∧
      ((buttons (FillToolbar (quietEnv []) freshManager
        (List.replicate 65536 saveDescriptor)).state.m_pToolBar).map (fun it => it.mnId))[65535]? =
          some 0 := by
  have hc : (List.replicate 65536 saveDescriptor).countP (wanted (identifyModule (quietEnv []))) =
      65536 := by
    rw [List.countP_replicate, if_pos wanted_saveDescriptor]
  have hr := FillToolbar_ok (quietEnv []) freshManager (List.replicate 65536 saveDescriptor)
    (quietEnv_unguarded [])
  refine ⟨rfl, hr, ?_⟩
  have hk := buttonKinds_FillToolbar (quietEnv []) freshManager
    (List.replicate 65536 saveDescriptor) rfl hr
  rw [hc, buttonKinds_eq_buttons] at hk
  have hm : (buttons (FillToolbar (quietEnv []) freshManager
      (List.replicate 65536 saveDescriptor)).state.m_pToolBar).map (fun it => it.mnId) =
      ((buttons (FillToolbar (quietEnv []) freshManager
        (List.replicate 65536 saveDescriptor)).state.m_pToolBar).map
          (fun it => (it.meType, it.mnId))).map Prod.snd := by
    rw [List.map_map]
    rfl
  rw [hm, hk, List.getElem?_map, List.getElem?_map,
    List.getElem?_range (by decide : 65535 < 65536)]
  rfl

/-- C6: on a live manager, every key of the controller mapping left by `FillToolbar`
is the identifier of an item of the toolbar that is not a separator. -/
theorem FillToolbar_keys_are_items (env : Env) (self : AddonsToolBarManager)
    (rAddonToolbar : List Descriptor) (hLive : self.m_bDisposed = false) (nId : Nat)
    (hKey : nId ∈ mapKeys (FillToolbar env self rAddonToolbar).state.m_aControllerMap) :
    ∃ it ∈ (FillToolbar env self rAddonToolbar).state.m_pToolBar.m_aItems,
      it.mnId = nId ∧ it.meType ≠ ToolBoxItemType.SEPARATOR := by
  rw [FillToolbar_map env self rAddonToolbar hLive] at hKey
  rw [FillToolbar_toolbar env self rAddonToolbar hLive]
  have h := KeysAreButtons_fillRun env self rAddonToolbar nId hKey
  simp only [kinds, List.mem_map, Prod.mk.injEq] at h
  obtain ⟨it, hit, ht, hid⟩ := h
  exact ⟨it, hit, hid, by rw [ht]; decide⟩

/-- In the example of the specification the key 2 is the identifier of a button. -/
theorem FillToolbar_keys_are_items_witness :
    freshManager.m_bDisposed = false ∧
      2 ∈ mapKeys (FillToolbar textEnv freshManager exampleToolbar).state.m_aControllerMap ∧
      ∃ it ∈ (FillToolbar textEnv freshManager exampleToolbar).state.m_pToolBar.m_aItems,
        it.mnId = 2 ∧ it.meType ≠ ToolBoxItemType.SEPARATOR :=
  ⟨rfl, by decide, FillToolbar_keys_are_items textEnv freshManager exampleToolbar rfl 2 (by decide)⟩

theorem createController_factory_threw (env : Env) (m : OUString) (nId : Nat) (d : Descriptor)
    (h1 : env.factoryIs = true) (h2 : env.hasController d.aURL m = Outcome.ok true)
    (h3 : env.serviceManager = Outcome.ok ())
    (h4 : env.createInstanceWithArgumentsAndContext d.aURL m nId = Outcome.threw) :
    createController env m nId d = Outcome.ok (none, false) := by
  unfold createController
  simp only [h1, if_true, h2, h3, h4]

/-- C7, as amended: the failures of `createInstanceWithArgumentsAndContext`, of
`initialize` and of `update` are caught inside `FillToolbar`. On a live manager, when
the calls that stand outside every `try` return (the factory lookup `hasController`,
the service manager query made while the arguments are built,
`ToolBarMerger::CreateController` and `createItemWindow`), `FillToolbar` returns
whatever the guarded calls do, every accepted descriptor that is not a separator has
its button in the toolbar, numbered in input order, and a failed factory
instantiation leaves the empty controller reference for the item. -/
theorem FillToolbar_guarded_failures (env : Env) (self : AddonsToolBarManager)
    (rAddonToolbar : List Descriptor) (hLive : self.m_bDisposed = false)
    (hUnguarded : UnguardedCallsReturn env) :
    (FillToolbar env self rAddonToolbar).threw = false ∧
      buttonKinds (FillToolbar env self rAddonToolbar).state.m_pToolBar =
        (List.range (rAddonToolbar.countP (wanted (identifyModule env)))).map
          (fun j => (ToolBoxItemType.BUTTON, (1 + j) % 65536)) ∧
      ∀ (m : OUString) (nId : Nat) (d : Descriptor), env.factoryIs = true →
        env.hasController d.aURL m = Outcome.ok true →
        env.createInstanceWithArgumentsAndContext d.aURL m nId = Outcome.threw →
        createController env m nId d = Outcome.ok (none, false) := by
  have hr := FillToolbar_ok env self rAddonToolbar hUnguarded
  refine ⟨hr, buttonKinds_FillToolbar env self rAddonToolbar hLive hr, ?_⟩
  intro m nId d h1 h2 h4
  have h3 : env.serviceManager = Outcome.ok () := by
    cases hs : env.serviceManager with
    | ok u => rfl
    | threw => exact absurd hs hUnguarded.2.1
  exact createController_factory_threw env m nId d h1 h2 h3 h4

/-- With a factory that fails to instantiate and controllers that fail in
`XInitialization` and `XUpdatable`, the example of the specification is processed to
the end; the item of the failed instantiation has the empty reference. -/
theorem FillToolbar_guarded_failures_witness :
    freshManager.m_bDisposed = false ∧ UnguardedCallsReturn guardedFailuresEnv ∧
      ((FillToolbar guardedFailuresEnv freshManager exampleToolbar).threw = false ∧
        buttonKinds (FillToolbar guardedFailuresEnv freshManager exampleToolbar).state.m_pToolBar =
          (List.range (exampleToolbar.countP (wanted (identifyModule guardedFailuresEnv)))).map
            (fun j => (ToolBoxItemType.BUTTON, (1 + j) % 65536)) ∧
        ∀ (m : OUString) (nId : Nat) (d : Descriptor), guardedFailuresEnv.factoryIs = true →
          guardedFailuresEnv.hasController d.aURL m = Outcome.ok true →
          guardedFailuresEnv.createInstanceWithArgumentsAndContext d.aURL m nId = Outcome.threw →
          createController guardedFailuresEnv m nId d = Outcome.ok (none, false)) ∧
      (FillToolbar guardedFailuresEnv freshManager exampleToolbar).state.m_aControllerMap =
        [(1, none), (2, some (brokenController 2))] :=
  ⟨rfl, guardedFailuresEnv_unguarded,
    FillToolbar_guarded_failures guardedFailuresEnv freshManager exampleToolbar rfl
      guardedFailuresEnv_unguarded, by decide⟩

/-- A failing `hasController` leaves `FillToolbar` as an exception: the item of the
first descriptor is in the toolbar, the second descriptor is not processed. -/
theorem FillToolbar_guarded_failures_counterexample :
    freshManager.m_bDisposed = false ∧
      lookupThrowsEnv.hasController saveDescriptor.aURL freshManager.m_aModuleIdentifier =
        Outcome.threw ∧
      (FillToolbar lookupThrowsEnv freshManager [saveDescriptor, printDescriptor]).threw = true ∧
      (FillToolbar lookupThrowsEnv freshManager
        [saveDescriptor, printDescriptor]).state.m_pToolBar.m_aItems.map itemView =
          [(ToolBoxItemType.BUTTON, 1, ou "cmd:Save")] := by
  decide

/-- C8: when the identification of the module fails, `FillToolbar` goes on with the
empty module identifier: the run, its outcome included, is the run in which the
identification succeeds (with whatever identifier) on the descriptors that carry no
context restriction, so that no descriptor with a restriction yields an item or a
separator; and the failure itself never leaves `FillToolbar`, which returns whenever
the calls outside every `try` do. -/
theorem FillToolbar_module_identification_failure (env : Env) (self : AddonsToolBarManager)
    (rAddonToolbar : List Descriptor) (hFails : env.identify = Outcome.threw) :
    (∀ aModuleIdentifier : OUString,
      FillToolbar env self rAddonToolbar =
        FillToolbar { env with identify := Outcome.ok aModuleIdentifier } self
          (rAddonToolbar.filter (fun d => d.aContext.isEmpty))) ∧
      (UnguardedCallsReturn env → (FillToolbar env self rAddonToolbar).threw = false) :=
  ⟨fun a => FillToolbar_identify_threw env self rAddonToolbar hFails a,
    fun h => FillToolbar_ok env self rAddonToolbar h⟩

/-- In the example of the specification, without module identifier, the restricted
`cmd:Print` yields nothing. -/
theorem FillToolbar_module_identification_failure_witness :
    unidentifiedEnv.identify = Outcome.threw ∧
      ((∀ aModuleIdentifier : OUString,
        FillToolbar unidentifiedEnv freshManager exampleToolbar =
          FillToolbar { unidentifiedEnv with identify := Outcome.ok aModuleIdentifier } freshManager
            (exampleToolbar.filter (fun d => d.aContext.isEmpty))) ∧
        (UnguardedCallsReturn unidentifiedEnv →
          (FillToolbar unidentifiedEnv freshManager exampleToolbar).threw = false)) ∧
      (FillToolbar unidentifiedEnv freshManager exampleToolbar).state.m_pToolBar.m_aItems.map
          itemView = [(ToolBoxItemType.BUTTON, 1, ou "cmd:Save"), (ToolBoxItemType.SEPARATOR, 0, [])] :=
  ⟨rfl, FillToolbar_module_identification_failure unidentifiedEnv freshManager exampleToolbar rfl,
    by decide⟩

/-- C9, on the code as it stands: for the item of `cmd:Save`, with an empty image
identifier and no add-on image, `RefreshImages` asks the command-to-icon lookup for
the empty image identifier and not for the command, and the item is left without the
icon that the lookup has for `cmd:Save`. -/
theorem RefreshImages_fallback_key :
    saveManager.m_pToolBar.m_aItems.map itemView = [(ToolBoxItemType.BUTTON, 1, ou "cmd:Save")] ∧
      saveManager.m_pToolBar.GetItemData 1 =
        some { aImageId := [], aControlType := [], nWidth := 0 } ∧
      saveIconOnly.GetImageFromURL (ou "cmd:Save") false = none ∧
      saveIconOnly.GetImageForCommand (ou "cmd:Save") ImageType.Size16 = some 7 ∧
      (RefreshImages saveIconOnly false (fun _ => (0, 0)) saveManager).m_pToolBar.m_aItems.map
        (fun it => it.maImage) = [none] ∧
      RetrieveImage saveIconOnly [] (ou "cmd:Save") false =
        saveIconOnly.GetImageForCommand [] ImageType.Size16 := by
  decide

/-- C10: `IsCorrectContext` accepts exactly the empty context list and, for a
non-empty module identifier, the context lists that contain the identifier as a
contiguous run of code units; so an identifier followed by anything is accepted. -/
theorem IsCorrectContext_iff (rModuleIdentifier aContextList : OUString) :
    (IsCorrectContext rModuleIdentifier aContextList = true ↔
      (aContextList = [] ∨
        (rModuleIdentifier ≠ [] ∧ ∃ s t, aContextList = s ++ rModuleIdentifier ++ t))) ∧
      (rModuleIdentifier ≠ [] →
        ∀ t, IsCorrectContext rModuleIdentifier (rModuleIdentifier ++ t) = true) := by
  refine ⟨IsCorrectContext_iff_substring rModuleIdentifier aContextList, ?_⟩
  intro hne t
  exact (IsCorrectContext_iff_substring rModuleIdentifier (rModuleIdentifier ++ t)).mpr
    (Or.inr ⟨hne, [], t, rfl⟩)

end framework
